import Mathlib

/-!
Verification of the tile-aware input reorder (`InputReorderNode` / `InputReorder`
kernel) of the oidn execution core, shallowly embedded in Lean 4.

Pixel values are modelled by `FP`: an idealized IEEE-like value that is either
NaN, +infinity, -infinity, or a finite exact rational.  Finite arithmetic is
exact (no rounding or overflow of finite results); NaN and infinity propagation
follows IEEE semantics, which is what the claims about sanitization depend on.
The largest finite single-precision float, std::numeric_limits<float>::max(),
is the rational `floatMax`.

The destination tensor is modelled as a channel-indexed pixel map plus an
explicit log of the (channel, h, w) coordinates written, so that claims about
which channels the kernel writes can be stated directly.
-/

set_option maxHeartbeats 1000000

set_option linter.unnecessarySeqFocus false

/-! ## Definitions: shallow embedding of the input reorder -/

/-- Idealized floating-point value: NaN, +inf, -inf or an exact finite rational. -/
inductive FP where
  | nan : FP
  | inf : FP
  | ninf : FP
  | fin : ℚ → FP
deriving DecidableEq, Repr

/-- Whether the value is a finite number (not NaN, not an infinity). -/
def FP.isFinite : FP → Bool
  | FP.fin _ => true
  | _ => false

/-- Whether the value is NaN. -/
def FP.isNan : FP → Bool
  | FP.nan => true
  | _ => false

/-- largest finite float, std::numeric_limits<float>::max() = (2 - 2^-23) * 2^127. -/
def floatMax : ℚ := 2 ^ 128 - 2 ^ 104

/-- Comparison on non-NaN values (NaN compares false, as in IEEE). -/
def FP.le : FP → FP → Bool
  | FP.nan, _ => false
  | _, FP.nan => false
  | FP.ninf, _ => true
  | _, FP.ninf => false
  | _, FP.inf => true
  | FP.inf, _ => false
  | FP.fin a, FP.fin b => decide (a ≤ b)

/-- IEEE-style max: NaN propagates (the kernel only applies it to sanitized values). -/
def fmax (a b : FP) : FP :=
  if a = FP.nan ∨ b = FP.nan then FP.nan else if FP.le a b then b else a

/-- IEEE-style min: NaN propagates (the kernel only applies it to sanitized values). -/
def fmin (a b : FP) : FP :=
  if a = FP.nan ∨ b = FP.nan then FP.nan else if FP.le a b then a else b

/-- clamp(x, lo, hi) = min(max(x, lo), hi), as in oidn's math helpers. -/
def fclamp (x lo hi : FP) : FP := fmin (fmax x lo) hi

/-- IEEE-style multiplication: NaN propagates, inf * 0 = NaN, signs as usual;
finite products are exact rationals. -/
def fmul : FP → FP → FP
  | FP.nan, _ => FP.nan
  | _, FP.nan => FP.nan
  | FP.inf, FP.inf => FP.inf
  | FP.inf, FP.ninf => FP.ninf
  | FP.ninf, FP.inf => FP.ninf
  | FP.ninf, FP.ninf => FP.inf
  | FP.inf, FP.fin b => if 0 < b then FP.inf else if b < 0 then FP.ninf else FP.nan
  | FP.fin a, FP.inf => if 0 < a then FP.inf else if a < 0 then FP.ninf else FP.nan
  | FP.ninf, FP.fin b => if 0 < b then FP.ninf else if b < 0 then FP.inf else FP.nan
  | FP.fin a, FP.ninf => if 0 < a then FP.ninf else if a < 0 then FP.inf else FP.nan
  | FP.fin a, FP.fin b => FP.fin (a * b)

/-- IEEE-style addition: NaN propagates, inf + (-inf) = NaN; finite sums exact. -/
def fadd : FP → FP → FP
  | FP.nan, _ => FP.nan
  | _, FP.nan => FP.nan
  | FP.inf, FP.ninf => FP.nan
  | FP.ninf, FP.inf => FP.nan
  | FP.inf, _ => FP.inf
  | _, FP.inf => FP.inf
  | FP.ninf, _ => FP.ninf
  | _, FP.ninf => FP.ninf
  | FP.fin a, FP.fin b => FP.fin (a + b)

/-- nan_to_zero(x) = isnan(x) ? 0 : x. -/
def fnanToZero : FP → FP
  | FP.nan => FP.fin 0
  | x => x

/-- A 3-component pixel value (vec3f). -/
structure Vec3 where
  x : FP
  y : FP
  z : FP
deriving DecidableEq, Repr

/-- Component i of a vector (0 maps to x, 1 to y, any other to z). -/
def vcomp (v : Vec3) : ℕ → FP
  | 0 => v.x
  | 1 => v.y
  | _ => v.z

/-- Replace component i of a vector. -/
def vset (v : Vec3) : ℕ → FP → Vec3
  | 0, a => { v with x := a }
  | 1, a => { v with y := a }
  | _, a => { v with z := a }

/-- value * s, componentwise (vec3f * float). -/
def vscale (v : Vec3) (s : FP) : Vec3 :=
  ⟨fmul v.x s, fmul v.y s, fmul v.z s⟩

/-- nan_to_zero on each component. -/
def vnanToZero (v : Vec3) : Vec3 :=
  ⟨fnanToZero v.x, fnanToZero v.y, fnanToZero v.z⟩

/-- clamp on each component with scalar bounds. -/
def vclamp (v : Vec3) (lo hi : FP) : Vec3 :=
  ⟨fclamp v.x lo hi, fclamp v.y lo hi, fclamp v.z lo hi⟩

/-- value * 0.5f + 0.5f, componentwise. -/
def vhalfRemap (v : Vec3) : Vec3 :=
  ⟨fadd (fmul v.x (FP.fin (1/2))) (FP.fin (1/2)),
   fadd (fmul v.y (FP.fin (1/2))) (FP.fin (1/2)),
   fadd (fmul v.z (FP.fin (1/2))) (FP.fin (1/2))⟩

/-- All three components are finite numbers. -/
def allFinite (v : Vec3) : Prop :=
  v.x.isFinite = true ∧ v.y.isFinite = true ∧ v.z.isFinite = true

/-- Transfer function interface as consumed by the kernel: an input scale and
the forward tone curve (applied to a whole vec3, as in the source). -/
structure TransferFunction where
  inputScale : FP
  forward : Vec3 → Vec3

/-- Destination tensor accessor: channel count, height, width, the stored
values, and a log of every (channel, h, w) coordinate written via `set`. -/
structure TensorAccessor where
  C : ℤ
  H : ℤ
  W : ℤ
  data : ℤ → ℤ → ℤ → FP
  writes : List (ℤ × ℤ × ℤ)

/-- dst.set(c, h, w, value): store one value, record the write. -/
def TensorAccessor.set (t : TensorAccessor) (c h w : ℤ) (v : FP) : TensorAccessor :=
  { t with
    data := fun c2 h2 w2 => if c2 = c ∧ h2 = h ∧ w2 = w then v else t.data c2 h2 w2,
    writes := (c, h, w) :: t.writes }

/-- Modelled from the spec: dst.set3(c, h, w, value) ("Write 3 channels")
stores the three vector components at channels c, c+1, c+2 of pixel (h, w).
The TensorAccessor source itself is outside the provided files. -/
def TensorAccessor.set3 (t : TensorAccessor) (c h w : ℤ) (v : Vec3) : TensorAccessor :=
  ((t.set c h w v.x).set (c + 1) h w v.y).set (c + 2) h w v.z

/-- storeZero(c, h, w): dst.set(c, h, w, 0.f). -/
def storeZero (d : TensorAccessor) (c h w : ℤ) : TensorAccessor :=
  d.set c h w (FP.fin 0)

/-- The loop `for (; c < C; ++c) storeZero(c, h, w)`, with the iteration count
`n = (C - c).toNat` made explicit. -/
def storeZeroRange (d : TensorAccessor) (c h w : ℤ) : ℕ → TensorAccessor
  | 0 => d
  | Nat.succ m => storeZeroRange (storeZero d c h w) (c + 1) h w m

/-- The value computation of InputReorder::storeColor: scale by the transfer
function input scale; nan_to_zero then clamp to [snorm ? -1 : 0,
hdr ? floatMax : 1]; if snorm remap to [0,1]; apply the forward transfer
function. -/
def colorTransform (tf : TransferFunction) (hdr snorm : Bool) (value : Vec3) : Vec3 :=
  let value := vscale value tf.inputScale
  let value := vclamp (vnanToZero value)
    (if snorm then FP.fin (-1) else FP.fin 0)
    (if hdr then FP.fin floatMax else FP.fin 1)
  let value := if snorm then vhalfRemap value else value
  tf.forward value

/-- The value computation of InputReorder::storeAlbedo: scale only when no
color image is present; nan_to_zero then clamp to [0,1]; forward transfer
function only when no color image is present. -/
def albedoTransform (tf : TransferFunction) (colorPresent : Bool) (value : Vec3) : Vec3 :=
  let value := if !colorPresent then vscale value tf.inputScale else value
  let value := vclamp (vnanToZero value) (FP.fin 0) (FP.fin 1)
  if !colorPresent then tf.forward value else value

/-- The value computation of InputReorder::storeNormal: scale only when no
color image is present; nan_to_zero then clamp to [-1,1]; remap to [0,1].
No forward transfer function. -/
def normalTransform (tf : TransferFunction) (colorPresent : Bool) (value : Vec3) : Vec3 :=
  let value := if !colorPresent then vscale value tf.inputScale else value
  let value := vclamp (vnanToZero value) (FP.fin (-1)) (FP.fin 1)
  vhalfRemap value

/-- InputReorder::storeColor. -/
def storeColor (tf : TransferFunction) (hdr snorm : Bool) (d : TensorAccessor)
    (c h w : ℤ) (value : Vec3) : TensorAccessor :=
  d.set3 c h w (colorTransform tf hdr snorm value)

/-- InputReorder::storeAlbedo. -/
def storeAlbedo (tf : TransferFunction) (colorPresent : Bool) (d : TensorAccessor)
    (c h w : ℤ) (value : Vec3) : TensorAccessor :=
  d.set3 c h w (albedoTransform tf colorPresent value)

/-- InputReorder::storeNormal. -/
def storeNormal (tf : TransferFunction) (colorPresent : Bool) (d : TensorAccessor)
    (c h w : ℤ) (value : Vec3) : TensorAccessor :=
  d.set3 c h w (normalTransform tf colorPresent value)

/-- Source image as held by the node (a non-null Image): dimensions and the
get3 pixel read (3-channel, per the spec's image model). -/
structure Image where
  height : ℤ
  width : ℤ
  get3 : ℤ → ℤ → Vec3

/-- ImageAccessor as seen by the kernel: `present` models `ptr != null`
(a default-constructed Image() has a null ptr). -/
structure ImageAccessor where
  present : Bool
  height : ℤ
  width : ℤ
  get3 : ℤ → ℤ → Vec3

/-- Accessor of a present image. -/
def Image.toAccessor (img : Image) : ImageAccessor :=
  ⟨true, img.height, img.width, img.get3⟩

/-- Accessor of a default-constructed Image() (null ptr). -/
def nullAccessor : ImageAccessor :=
  ⟨false, 0, 0, fun _ _ => ⟨FP.fin 0, FP.fin 0, FP.fin 0⟩⟩

/-- ReorderTile: rectangular source region and its placement in the destination. -/
structure Tile where
  hSrcBegin : ℤ
  wSrcBegin : ℤ
  hDstBegin : ℤ
  wDstBegin : ℤ
  H : ℤ
  W : ℤ
deriving DecidableEq, Repr

/-- The in-tile test of InputReorder::operator():
h >= 0 && h < tile.H && w >= 0 && w < tile.W for h = hDst - hDstBegin,
w = wDst - wDstBegin. -/
def inTile (t : Tile) (hDst wDst : ℤ) : Prop :=
  0 ≤ hDst - t.hDstBegin ∧ hDst - t.hDstBegin < t.H ∧
  0 ≤ wDst - t.wDstBegin ∧ wDst - t.wDstBegin < t.W

instance (t : Tile) (hDst wDst : ℤ) : Decidable (inTile t hDst wDst) := by
  unfold inTile; infer_instance

/-- hSrc = h + tile.hSrcBegin for h = hDst - tile.hDstBegin. -/
def Tile.hSrc (t : Tile) (hDst : ℤ) : ℤ := hDst - t.hDstBegin + t.hSrcBegin

/-- wSrc = w + tile.wSrcBegin for w = wDst - tile.wDstBegin. -/
def Tile.wSrc (t : Tile) (wDst : ℤ) : ℤ := wDst - t.wDstBegin + t.wSrcBegin

/-- The InputReorder kernel object: sources, destination, tile, transfer
function and the hdr/snorm flags. -/
structure InputReorder where
  color : ImageAccessor
  albedo : ImageAccessor
  normal : ImageAccessor
  dst : TensorAccessor
  tile : Tile
  transferFunc : TransferFunction
  hdr : Bool
  snorm : Bool

/-- Total channel count of the images the kernel sees as present
(each contributes the 3 channels its store writes). -/
def presentChans (k : InputReorder) : ℤ :=
  (if k.color.present then 3 else 0) + (if k.albedo.present then 3 else 0) +
  (if k.normal.present then 3 else 0)

/-- InputReorder::operator()(hDst, wDst): one destination pixel.  In-tile, the
present images are stored in color, albedo, normal order at channel offsets
0, +3, +6 and the remaining channels up to dst.C are zeroed; out of tile all
dst.C channels are zeroed.  (`wDst2` mirrors the shadowing redefinition of
wDst in the source; it equals the outer wDst.) -/
def InputReorder.run (k : InputReorder) (hDst wDst : ℤ) : TensorAccessor :=
  let h := hDst - k.tile.hDstBegin
  let w := wDst - k.tile.wDstBegin
  if inTile k.tile hDst wDst then
    let hSrc := h + k.tile.hSrcBegin
    let wSrc := w + k.tile.wSrcBegin
    let wDst2 := w + k.tile.wDstBegin
    let s0 : TensorAccessor × ℤ := (k.dst, 0)
    let s1 : TensorAccessor × ℤ :=
      if k.color.present then
        (storeColor k.transferFunc k.hdr k.snorm s0.1 s0.2 hDst wDst2
          (k.color.get3 hSrc wSrc), s0.2 + 3)
      else s0
    let s2 : TensorAccessor × ℤ :=
      if k.albedo.present then
        (storeAlbedo k.transferFunc k.color.present s1.1 s1.2 hDst wDst2
          (k.albedo.get3 hSrc wSrc), s1.2 + 3)
      else s1
    let s3 : TensorAccessor × ℤ :=
      if k.normal.present then
        (storeNormal k.transferFunc k.color.present s2.1 s2.2 hDst wDst2
          (k.normal.get3 hSrc wSrc), s2.2 + 3)
      else s2
    storeZeroRange s3.1 s3.2 hDst wDst2 (s3.1.C - s3.2).toNat
  else
    storeZeroRange k.dst 0 hDst wDst k.dst.C.toNat

/-- Row-major list of the destination pixels of a H x W dispatch range. -/
def pixelList (Hn Wn : ℕ) : List (ℤ × ℤ) :=
  (List.range Hn).flatMap fun (a : ℕ) =>
    (List.range Wn).map fun (b : ℕ) => ((a : ℤ), (b : ℤ))

/-- The whole kernel dispatch over destination pixels (hDst, wDst) in
[0, dst.H) x [0, dst.W), sequentialized in row-major order (the parallel
writes of distinct pixels are disjoint). -/
def InputReorder.runAll (k : InputReorder) : TensorAccessor :=
  (pixelList k.dst.H.toNat k.dst.W.toNat).foldl
    (fun d p => ({ k with dst := d }).run p.1 p.2) k.dst

/-- InputReorderNode: destination tensor, transfer function, flags, the three
optional source images and the tile. -/
structure InputReorderNode where
  dst : TensorAccessor
  transferFunc : TransferFunction
  hdr : Bool
  snorm : Bool
  color : Option Image
  albedo : Option Image
  normal : Option Image
  tile : Tile

/-- InputReorderNode::setTile. -/
def InputReorderNode.setTile (n : InputReorderNode)
    (hSrc wSrc hDst wDst H W : ℤ) : InputReorderNode :=
  { n with tile := ⟨hSrc, wSrc, hDst, wDst, H, W⟩ }

/-- The InputReorderNode constructor: no source images yet, and
setTile(0, 0, 0, 0, 0, 0). -/
def mkInputReorderNode (dst : TensorAccessor) (tf : TransferFunction)
    (hdr snorm : Bool) : InputReorderNode :=
  InputReorderNode.setTile
    { dst := dst, transferFunc := tf, hdr := hdr, snorm := snorm,
      color := none, albedo := none, normal := none,
      tile := ⟨0, 0, 0, 0, 0, 0⟩ }
    0 0 0 0 0 0

/-- Channel count of an optional image: 3 when present (the images are
3-channel, per the spec's image model), 0 when absent. -/
def numChannelsOpt : Option Image → ℤ
  | some _ => 3
  | none => 0

/-- The assertion of InputReorderNode::setSrc:
dst->dims[0] >= sum of the channel counts of the present images. -/
def setSrcAssert (n : InputReorderNode)
    (color albedo normal : Option Image) : Prop :=
  numChannelsOpt color + numChannelsOpt albedo + numChannelsOpt normal ≤ n.dst.C

/-- InputReorderNode::setSrc (the stores after the assertion). -/
def InputReorderNode.setSrc (n : InputReorderNode)
    (color albedo normal : Option Image) : InputReorderNode :=
  { n with color := color, albedo := albedo, normal := normal }

/-- Modelled from the spec: getInput(), the primary source image whose bounds
the execute assertions check (the first present image in color, albedo,
normal order).  Its definition is outside the provided files. -/
def InputReorderNode.getInput (n : InputReorderNode) : Option Image :=
  match n.color with
  | some c => some c
  | none =>
    match n.albedo with
    | some a => some a
    | none => n.normal

/-- The four assertions of CPUInputReorderNode::execute, for input image inp:
the tile lies within the source image and within the destination tensor. -/
def executeAssertWith (n : InputReorderNode) (inp : Image) : Prop :=
  n.tile.H + n.tile.hSrcBegin ≤ inp.height ∧
  n.tile.W + n.tile.wSrcBegin ≤ inp.width ∧
  n.tile.H + n.tile.hDstBegin ≤ n.dst.H ∧
  n.tile.W + n.tile.wDstBegin ≤ n.dst.W

/-- The assertions of execute: there is an input image and the tile is within
bounds. -/
def executeAssert (n : InputReorderNode) : Prop :=
  ∃ inp, n.getInput = some inp ∧ executeAssertWith n inp

/-- Building the kernel object in execute:
impl.color = color ? *color : Image(), etc. -/
def InputReorderNode.makeKernel (n : InputReorderNode) : InputReorder :=
  { color := match n.color with | some i => i.toAccessor | none => nullAccessor,
    albedo := match n.albedo with | some i => i.toAccessor | none => nullAccessor,
    normal := match n.normal with | some i => i.toAccessor | none => nullAccessor,
    dst := n.dst,
    tile := n.tile,
    transferFunc := n.transferFunc,
    hdr := n.hdr,
    snorm := n.snorm }

/-- Executing the node: dispatch the kernel over every destination pixel. -/
def InputReorderNode.execute (n : InputReorderNode) : TensorAccessor :=
  n.makeKernel.runAll

/-- The value the kernel stores at channel c of an in-tile destination pixel
whose source pixel is (hS, wS): present images occupy 3-channel segments in
color, albedo, normal order, and the remaining channels are zero. -/
def inTileVal (k : InputReorder) (hS wS c : ℤ) : FP :=
  if k.color.present = true ∧ 0 ≤ c ∧ c < 3 then
    vcomp (colorTransform k.transferFunc k.hdr k.snorm (k.color.get3 hS wS)) c.toNat
  else if k.albedo.present = true ∧ (if k.color.present then 3 else 0) ≤ c ∧
      c < (if k.color.present then 3 else 0) + 3 then
    vcomp (albedoTransform k.transferFunc k.color.present (k.albedo.get3 hS wS))
      (c - (if k.color.present then 3 else 0)).toNat
  else if k.normal.present = true ∧
      (if k.color.present then 3 else 0) + (if k.albedo.present then 3 else 0) ≤ c ∧
      c < (if k.color.present then 3 else 0) + (if k.albedo.present then 3 else 0) + 3 then
    vcomp (normalTransform k.transferFunc k.color.present (k.normal.get3 hS wS))
      (c - ((if k.color.present then 3 else 0) + (if k.albedo.present then 3 else 0))).toNat
  else FP.fin 0

/-- Color pipeline exactly as claimed: scale, NaN to 0, clamp to
[snorm ? -1 : 0, hdr ? +infinity : 1], snorm remap, forward, with the upper
clamp bound +infinity in hdr mode, as the claim words it. -/
def specColorPipeline (tf : TransferFunction) (hdr snorm : Bool) (value : Vec3) : Vec3 :=
  let scaled := vscale value tf.inputScale
  let sanitized := vclamp (vnanToZero scaled)
    (if snorm then FP.fin (-1) else FP.fin 0)
    (if hdr then FP.inf else FP.fin 1)
  let remapped := if snorm then vhalfRemap sanitized else sanitized
  tf.forward remapped

/-- Color pipeline as amended: identical to the claim except that the hdr
upper clamp bound is the largest finite float (FLT_MAX), not +infinity. -/
def amendedColorPipeline (tf : TransferFunction) (hdr snorm : Bool) (value : Vec3) : Vec3 :=
  let scaled := vscale value tf.inputScale
  let sanitized := vclamp (vnanToZero scaled)
    (if snorm then FP.fin (-1) else FP.fin 0)
    (if hdr then FP.fin floatMax else FP.fin 1)
  let remapped := if snorm then vhalfRemap sanitized else sanitized
  tf.forward remapped

/-- Albedo pipeline as claimed: input scale only when no color image is
present; NaN to 0; clamp to [0,1]; forward only when no color image is
present. -/
def specAlbedoPipeline (tf : TransferFunction) (colorPresent : Bool) (value : Vec3) : Vec3 :=
  let scaled := if colorPresent then value else vscale value tf.inputScale
  let sanitized := vclamp (vnanToZero scaled) (FP.fin 0) (FP.fin 1)
  if colorPresent then sanitized else tf.forward sanitized

/-- Normal pipeline as claimed: input scale only when no color image is
present; NaN to 0; clamp to [-1,1]; remap v to v*0.5+0.5; no forward. -/
def specNormalPipeline (tf : TransferFunction) (colorPresent : Bool) (value : Vec3) : Vec3 :=
  let scaled := if colorPresent then value else vscale value tf.inputScale
  let sanitized := vclamp (vnanToZero scaled) (FP.fin (-1)) (FP.fin 1)
  vhalfRemap sanitized

/-- Linear transfer function: input scale 1, forward the identity. -/
def tfLinear : TransferFunction := ⟨FP.fin 1, fun v => v⟩

/-- A fresh destination tensor, all zero, empty write log. -/
def dstEmpty (C H W : ℤ) : TensorAccessor := ⟨C, H, W, fun _ _ _ => FP.fin 0, []⟩

/-- HDR kernel whose color source pixel is +infinity. -/
def kC1 : InputReorder :=
  { color := ⟨true, 1, 1, fun _ _ => ⟨FP.inf, FP.fin 0, FP.fin 0⟩⟩,
    albedo := nullAccessor,
    normal := nullAccessor,
    dst := dstEmpty 3 1 1,
    tile := ⟨0, 0, 0, 0, 1, 1⟩,
    transferFunc := tfLinear,
    hdr := true,
    snorm := false }

/-- Kernel with no sources and a tile placed at (1,1) inside a 3x3 destination. -/
def kC2 : InputReorder :=
  { color := nullAccessor,
    albedo := nullAccessor,
    normal := nullAccessor,
    dst := dstEmpty 2 3 3,
    tile := ⟨0, 0, 1, 1, 2, 2⟩,
    transferFunc := tfLinear,
    hdr := false,
    snorm := false }

/-- Kernel with color, albedo and normal present, C = 9, identity tile. -/
def kC3 : InputReorder :=
  { color := ⟨true, 2, 2, fun _ _ => ⟨FP.fin (1/4), FP.fin (1/2), FP.fin 1⟩⟩,
    albedo := ⟨true, 2, 2, fun _ _ => ⟨FP.fin (3/4), FP.nan, FP.fin 2⟩⟩,
    normal := ⟨true, 2, 2, fun _ _ => ⟨FP.fin (-1/2), FP.fin 0, FP.nan⟩⟩,
    dst := dstEmpty 9 2 2,
    tile := ⟨0, 0, 0, 0, 2, 2⟩,
    transferFunc := tfLinear,
    hdr := false,
    snorm := false }

/-- Kernel with only a color image and C = 9. -/
def kC3b : InputReorder :=
  { color := ⟨true, 2, 2, fun _ _ => ⟨FP.fin (1/4), FP.fin (1/2), FP.fin 1⟩⟩,
    albedo := nullAccessor,
    normal := nullAccessor,
    dst := dstEmpty 9 2 2,
    tile := ⟨0, 0, 0, 0, 2, 2⟩,
    transferFunc := tfLinear,
    hdr := false,
    snorm := false }

/-- The value of storeColor just before the forward transfer function is
applied (the sanitized, optionally remapped color). -/
def colorPre (tf : TransferFunction) (hdr snorm : Bool) (value : Vec3) : Vec3 :=
  let value := vscale value tf.inputScale
  let value := vclamp (vnanToZero value)
    (if snorm then FP.fin (-1) else FP.fin 0)
    (if hdr then FP.fin floatMax else FP.fin 1)
  if snorm then vhalfRemap value else value

/-- The value of storeAlbedo just before the conditional forward transfer
function (the sanitized albedo). -/
def albedoPre (tf : TransferFunction) (colorPresent : Bool) (value : Vec3) : Vec3 :=
  let value := if !colorPresent then vscale value tf.inputScale else value
  vclamp (vnanToZero value) (FP.fin 0) (FP.fin 1)

/-- Kernel whose three sources each carry a NaN component. -/
def kC6 : InputReorder :=
  { color := ⟨true, 1, 1, fun _ _ => ⟨FP.nan, FP.fin 0, FP.fin 1⟩⟩,
    albedo := ⟨true, 1, 1, fun _ _ => ⟨FP.fin 0, FP.nan, FP.fin 1⟩⟩,
    normal := ⟨true, 1, 1, fun _ _ => ⟨FP.fin 0, FP.fin 1, FP.nan⟩⟩,
    dst := dstEmpty 9 1 1,
    tile := ⟨0, 0, 0, 0, 1, 1⟩,
    transferFunc := tfLinear,
    hdr := false,
    snorm := false }

instance (n : InputReorderNode) (c a nr : Option Image) :
    Decidable (setSrcAssert n c a nr) := by
  unfold setSrcAssert
  infer_instance

instance (n : InputReorderNode) (inp : Image) :
    Decidable (executeAssertWith n inp) := by
  unfold executeAssertWith
  infer_instance

/-- Image used by the node-level witnesses. -/
def imgC7 : Image := ⟨1, 1, fun _ _ => ⟨FP.fin 0, FP.fin 0, FP.fin 0⟩⟩

/-- Node with a 9-channel destination, a 1x1 tile and a color source. -/
def nC7 : InputReorderNode :=
  ((mkInputReorderNode (dstEmpty 9 1 1) tfLinear false false).setTile 0 0 0 0 1 1).setSrc
    (some imgC7) none none

/-- Kernel whose color image is defined only at the source pixel (0,0) and
whose destination starts full of the value 7. -/
def kC10a : InputReorder :=
  { color := ⟨true, 1, 1, fun hh ww =>
      if hh = 0 ∧ ww = 0 then ⟨FP.fin 1, FP.fin 2, FP.fin 3⟩
      else ⟨FP.nan, FP.nan, FP.nan⟩⟩,
    albedo := nullAccessor,
    normal := nullAccessor,
    dst := ⟨3, 1, 1, fun _ _ _ => FP.fin 7, []⟩,
    tile := ⟨0, 0, 0, 0, 1, 1⟩,
    transferFunc := tfLinear,
    hdr := false,
    snorm := false }

/-- Same configuration with a constant color image and a fresh destination. -/
def kC10b : InputReorder :=
  { color := ⟨true, 1, 1, fun _ _ => ⟨FP.fin 1, FP.fin 2, FP.fin 3⟩⟩,
    albedo := nullAccessor,
    normal := nullAccessor,
    dst := dstEmpty 3 1 1,
    tile := ⟨0, 0, 0, 0, 1, 1⟩,
    transferFunc := tfLinear,
    hdr := false,
    snorm := false }

/-! ## Theorems -/

theorem TensorAccessor.set_C (t : TensorAccessor) (c h w : ℤ) (v : FP) :
    (t.set c h w v).C = t.C := rfl

theorem TensorAccessor.set3_C (t : TensorAccessor) (c h w : ℤ) (v : Vec3) :
    (t.set3 c h w v).C = t.C := rfl

theorem storeZeroRange_C (h w : ℤ) :
    ∀ (n : ℕ) (d : TensorAccessor) (c : ℤ), (storeZeroRange d c h w n).C = d.C := by
  intro n
  induction n with
  | zero => intro d c; rfl
  | succ m ih => intro d c; simpa [storeZeroRange] using ih (storeZero d c h w) (c + 1)

theorem set_data_self (t : TensorAccessor) (c h w : ℤ) (v : FP) :
    (t.set c h w v).data c h w = v := by
  simp [TensorAccessor.set]

theorem set_data_ne (t : TensorAccessor) (c h w : ℤ) (v : FP) (c2 h2 w2 : ℤ)
    (hne : ¬(c2 = c ∧ h2 = h ∧ w2 = w)) :
    (t.set c h w v).data c2 h2 w2 = t.data c2 h2 w2 := by
  simp only [TensorAccessor.set, if_neg hne]

theorem set3_data_other (t : TensorAccessor) (c h w : ℤ) (v : Vec3) (c2 h2 w2 : ℤ)
    (hne : c2 < c ∨ c + 2 < c2 ∨ h2 ≠ h ∨ w2 ≠ w) :
    (t.set3 c h w v).data c2 h2 w2 = t.data c2 h2 w2 := by
  unfold TensorAccessor.set3
  rw [set_data_ne, set_data_ne, set_data_ne]
  · omega
  · omega
  · omega

theorem set3_data_at (t : TensorAccessor) (c h w : ℤ) (v : Vec3) (c2 : ℤ)
    (h1 : c ≤ c2) (h2 : c2 < c + 3) :
    (t.set3 c h w v).data c2 h w = vcomp v (c2 - c).toNat := by
  unfold TensorAccessor.set3
  have hcase : c2 = c ∨ c2 = c + 1 ∨ c2 = c + 2 := by omega
  rcases hcase with hc | hc | hc
  · subst hc
    rw [set_data_ne, set_data_ne, set_data_self]
    · simp [vcomp]
    · omega
    · omega
  · subst hc
    rw [set_data_ne, set_data_self]
    · have h1 : (c + 1 - c).toNat = 1 := by omega
      simp [h1, vcomp]
    · omega
  · subst hc
    rw [set_data_self]
    have h2 : (c + 2 - c).toNat = 2 := by omega
    simp [h2, vcomp]

theorem storeZeroRange_data_out (h w : ℤ) :
    ∀ (n : ℕ) (d : TensorAccessor) (c : ℤ) (c2 h2 w2 : ℤ),
      (c2 < c ∨ c + n ≤ c2 ∨ h2 ≠ h ∨ w2 ≠ w) →
      (storeZeroRange d c h w n).data c2 h2 w2 = d.data c2 h2 w2 := by
  intro n
  induction n with
  | zero => intro d c c2 h2 w2 _; rfl
  | succ m ih =>
    intro d c c2 h2 w2 hc
    show (storeZeroRange (storeZero d c h w) (c + 1) h w m).data c2 h2 w2 = _
    have hstep : c2 < c + 1 ∨ c + 1 + (m : ℤ) ≤ c2 ∨ h2 ≠ h ∨ w2 ≠ w := by omega
    rw [ih (storeZero d c h w) (c + 1) c2 h2 w2 hstep]
    exact set_data_ne d c h w (FP.fin 0) c2 h2 w2 (by omega)

theorem storeZeroRange_data_in (h w : ℤ) :
    ∀ (n : ℕ) (d : TensorAccessor) (c : ℤ) (c2 : ℤ),
      c ≤ c2 → c2 < c + n →
      (storeZeroRange d c h w n).data c2 h w = FP.fin 0 := by
  intro n
  induction n with
  | zero => intro d c c2 hlo hhi; omega
  | succ m ih =>
    intro d c c2 hlo hhi
    show (storeZeroRange (storeZero d c h w) (c + 1) h w m).data c2 h w = _
    by_cases hc : c2 = c
    · subst hc
      rw [storeZeroRange_data_out h w m (storeZero d c2 h w) (c2 + 1) c2 h w (by omega)]
      exact set_data_self d c2 h w (FP.fin 0)
    · exact ih (storeZero d c h w) (c + 1) c2 (by omega) (by omega)

theorem set_writes (t : TensorAccessor) (c h w : ℤ) (v : FP) :
    (t.set c h w v).writes = (c, h, w) :: t.writes := rfl

theorem set3_writes_mem (t : TensorAccessor) (c h w : ℤ) (v : Vec3)
    (e : ℤ × ℤ × ℤ) (he : e ∈ (t.set3 c h w v).writes) :
    e ∈ t.writes ∨ (c ≤ e.1 ∧ e.1 < c + 3 ∧ e.2.1 = h ∧ e.2.2 = w) := by
  unfold TensorAccessor.set3 at he
  simp only [set_writes, List.mem_cons] at he
  rcases he with he | he | he | he
  · subst he; right; exact ⟨by omega, by omega, rfl, rfl⟩
  · subst he; right; exact ⟨by omega, by omega, rfl, rfl⟩
  · subst he; right; exact ⟨by omega, by omega, rfl, rfl⟩
  · left; exact he

theorem storeZeroRange_writes_mem (h w : ℤ) :
    ∀ (n : ℕ) (d : TensorAccessor) (c : ℤ) (e : ℤ × ℤ × ℤ),
      e ∈ (storeZeroRange d c h w n).writes →
      e ∈ d.writes ∨ (c ≤ e.1 ∧ e.1 < c + n ∧ e.2.1 = h ∧ e.2.2 = w) := by
  intro n
  induction n with
  | zero => intro d c e he; left; exact he
  | succ m ih =>
    intro d c e he
    rcases ih (storeZero d c h w) (c + 1) e he with he2 | he2
    · simp only [storeZero, set_writes, List.mem_cons] at he2
      rcases he2 with he3 | he3
      · subst he3; right; exact ⟨by omega, by omega, rfl, rfl⟩
      · left; exact he3
    · right; exact ⟨by omega, by omega, he2.2.2.1, he2.2.2.2⟩

theorem InputReorder.run_C (k : InputReorder) (hDst wDst : ℤ) :
    (k.run hDst wDst).C = k.dst.C := by
  unfold InputReorder.run
  split
  · rcases hc : k.color.present <;> rcases ha : k.albedo.present <;>
      rcases hn : k.normal.present <;>
      simp [hc, ha, hn, storeZeroRange_C, storeColor, storeAlbedo, storeNormal,
        TensorAccessor.set3_C]
  · exact storeZeroRange_C _ _ _ _ _

theorem run_data_out (k : InputReorder) (hDst wDst : ℤ)
    (hout : ¬ inTile k.tile hDst wDst) (c : ℤ) (hc0 : 0 ≤ c) (hcC : c < k.dst.C) :
    (k.run hDst wDst).data c hDst wDst = FP.fin 0 := by
  unfold InputReorder.run
  rw [if_neg hout]
  exact storeZeroRange_data_in hDst wDst _ k.dst 0 c hc0 (by omega)

theorem run_data_in (k : InputReorder) (hDst wDst : ℤ)
    (hin : inTile k.tile hDst wDst) (c : ℤ) (hc0 : 0 ≤ c)
    (hcC : c < k.dst.C ∨ c < presentChans k) :
    (k.run hDst wDst).data c hDst wDst =
      inTileVal k (k.tile.hSrc hDst) (k.tile.wSrc wDst) c := by
  have hw2 : wDst - k.tile.wDstBegin + k.tile.wDstBegin = wDst := by ring
  unfold InputReorder.run
  rw [if_pos hin]
  unfold presentChans at hcC
  unfold inTileVal Tile.hSrc Tile.wSrc
  rcases hcol : k.color.present <;> rcases halb : k.albedo.present <;>
      rcases hnor : k.normal.present <;>
      simp only [hcol, halb, hnor, if_true, if_false, Bool.false_eq_true, Bool.true_eq_false,
        false_and, true_and, eq_self_iff_true, ite_false, ite_true, hw2, zero_add, add_zero,
        sub_zero, storeColor, storeAlbedo, storeNormal, TensorAccessor.set3_C,
        TensorAccessor.set_C, storeZeroRange_C] at hcC ⊢
  -- none present
  · rw [storeZeroRange_data_in hDst wDst _ _ 0 c hc0 (by omega)]
  -- normal only
  · by_cases h1 : c < 3
    · rw [storeZeroRange_data_out hDst wDst _ _ 3 c hDst wDst (by omega),
        set3_data_at _ 0 hDst wDst _ c hc0 (by omega), if_pos ⟨hc0, h1⟩]
      simp only [sub_zero]
    · rw [storeZeroRange_data_in hDst wDst _ _ 3 c (by omega) (by omega),
        if_neg (by omega)]
  -- albedo only
  · by_cases h1 : c < 3
    · rw [storeZeroRange_data_out hDst wDst _ _ 3 c hDst wDst (by omega),
        set3_data_at _ 0 hDst wDst _ c hc0 (by omega), if_pos ⟨hc0, h1⟩]
      simp only [sub_zero]
    · rw [storeZeroRange_data_in hDst wDst _ _ 3 c (by omega) (by omega),
        if_neg (by omega)]
  -- albedo and normal
  · by_cases h1 : c < 3
    · rw [storeZeroRange_data_out hDst wDst _ _ (3 + 3) c hDst wDst (by omega),
        set3_data_other _ 3 hDst wDst _ c hDst wDst (by omega),
        set3_data_at _ 0 hDst wDst _ c hc0 (by omega), if_pos ⟨hc0, h1⟩]
      simp only [sub_zero]
    · by_cases h2 : c < 3 + 3
      · rw [storeZeroRange_data_out hDst wDst _ _ (3 + 3) c hDst wDst (by omega),
          set3_data_at _ 3 hDst wDst _ c (by omega) (by omega),
          if_neg (by omega), if_pos ⟨by omega, h2⟩]
      · rw [storeZeroRange_data_in hDst wDst _ _ (3 + 3) c (by omega) (by omega),
          if_neg (by omega), if_neg (by omega)]
  -- color only
  · by_cases h1 : c < 3
    · rw [storeZeroRange_data_out hDst wDst _ _ 3 c hDst wDst (by omega),
        set3_data_at _ 0 hDst wDst _ c hc0 (by omega), if_pos ⟨hc0, h1⟩]
      simp only [sub_zero]
    · rw [storeZeroRange_data_in hDst wDst _ _ 3 c (by omega) (by omega),
        if_neg (by omega)]
  -- color and normal
  · by_cases h1 : c < 3
    · rw [storeZeroRange_data_out hDst wDst _ _ (3 + 3) c hDst wDst (by omega),
        set3_data_other _ 3 hDst wDst _ c hDst wDst (by omega),
        set3_data_at _ 0 hDst wDst _ c hc0 (by omega), if_pos ⟨hc0, h1⟩]
      simp only [sub_zero]
    · by_cases h2 : c < 3 + 3
      · rw [storeZeroRange_data_out hDst wDst _ _ (3 + 3) c hDst wDst (by omega),
          set3_data_at _ 3 hDst wDst _ c (by omega) (by omega),
          if_neg (by omega), if_pos ⟨by omega, h2⟩]
      · rw [storeZeroRange_data_in hDst wDst _ _ (3 + 3) c (by omega) (by omega),
          if_neg (by omega), if_neg (by omega)]
  -- color and albedo
  · by_cases h1 : c < 3
    · rw [storeZeroRange_data_out hDst wDst _ _ (3 + 3) c hDst wDst (by omega),
        set3_data_other _ 3 hDst wDst _ c hDst wDst (by omega),
        set3_data_at _ 0 hDst wDst _ c hc0 (by omega), if_pos ⟨hc0, h1⟩]
      simp only [sub_zero]
    · by_cases h2 : c < 3 + 3
      · rw [storeZeroRange_data_out hDst wDst _ _ (3 + 3) c hDst wDst (by omega),
          set3_data_at _ 3 hDst wDst _ c (by omega) (by omega),
          if_neg (by omega), if_pos ⟨by omega, h2⟩]
      · rw [storeZeroRange_data_in hDst wDst _ _ (3 + 3) c (by omega) (by omega),
          if_neg (by omega), if_neg (by omega)]
  -- all present
  · by_cases h1 : c < 3
    · rw [storeZeroRange_data_out hDst wDst _ _ (3 + 3 + 3) c hDst wDst (by omega),
        set3_data_other _ (3 + 3) hDst wDst _ c hDst wDst (by omega),
        set3_data_other _ 3 hDst wDst _ c hDst wDst (by omega),
        set3_data_at _ 0 hDst wDst _ c hc0 (by omega), if_pos ⟨hc0, h1⟩]
      simp only [sub_zero]
    · by_cases h2 : c < 3 + 3
      · rw [storeZeroRange_data_out hDst wDst _ _ (3 + 3 + 3) c hDst wDst (by omega),
          set3_data_other _ (3 + 3) hDst wDst _ c hDst wDst (by omega),
          set3_data_at _ 3 hDst wDst _ c (by omega) (by omega),
          if_neg (by omega), if_pos ⟨by omega, h2⟩]
      · by_cases h3 : c < 3 + 3 + 3
        · rw [storeZeroRange_data_out hDst wDst _ _ (3 + 3 + 3) c hDst wDst (by omega),
            set3_data_at _ (3 + 3) hDst wDst _ c (by omega) (by omega),
            if_neg (by omega), if_neg (by omega), if_pos ⟨by omega, h3⟩]
        · rw [storeZeroRange_data_in hDst wDst _ _ (3 + 3 + 3) c (by omega) (by omega),
            if_neg (by omega), if_neg (by omega), if_neg (by omega)]

theorem run_data_frame (k : InputReorder) (hDst wDst c h2 w2 : ℤ)
    (hne : h2 ≠ hDst ∨ w2 ≠ wDst) :
    (k.run hDst wDst).data c h2 w2 = k.dst.data c h2 w2 := by
  have hw2 : wDst - k.tile.wDstBegin + k.tile.wDstBegin = wDst := by ring
  unfold InputReorder.run
  by_cases hin : inTile k.tile hDst wDst
  · rw [if_pos hin]
    rcases hcol : k.color.present <;> rcases halb : k.albedo.present <;>
        rcases hnor : k.normal.present <;>
        simp only [hcol, halb, hnor, if_true, if_false, Bool.false_eq_true, Bool.true_eq_false,
          ite_false, ite_true, hw2, zero_add, add_zero, sub_zero, storeColor, storeAlbedo,
          storeNormal, TensorAccessor.set3_C, TensorAccessor.set_C, storeZeroRange_C] <;>
        rw [storeZeroRange_data_out hDst wDst _ _ _ c h2 w2 (by omega)] <;>
        (try rw [set3_data_other _ _ hDst wDst _ c h2 w2 (by omega)]) <;>
        (try rw [set3_data_other _ _ hDst wDst _ c h2 w2 (by omega)]) <;>
        (try rw [set3_data_other _ _ hDst wDst _ c h2 w2 (by omega)])
  · rw [if_neg hin]
    exact storeZeroRange_data_out hDst wDst _ _ _ c h2 w2 (by omega)

theorem run_writes_mem (k : InputReorder) (hCge : presentChans k ≤ k.dst.C)
    (hDst wDst : ℤ) (e : ℤ × ℤ × ℤ) (he : e ∈ (k.run hDst wDst).writes) :
    e ∈ k.dst.writes ∨ (0 ≤ e.1 ∧ e.1 < k.dst.C) := by
  have hw2 : wDst - k.tile.wDstBegin + k.tile.wDstBegin = wDst := by ring
  unfold presentChans at hCge
  unfold InputReorder.run at he
  by_cases hin : inTile k.tile hDst wDst
  · rw [if_pos hin] at he
    rcases hcol : k.color.present <;> rcases halb : k.albedo.present <;>
        rcases hnor : k.normal.present <;>
        simp only [hcol, halb, hnor, if_true, if_false, Bool.false_eq_true, Bool.true_eq_false,
          ite_false, ite_true, hw2, zero_add, add_zero, sub_zero, storeColor, storeAlbedo,
          storeNormal, TensorAccessor.set3_C, TensorAccessor.set_C, storeZeroRange_C]
          at hCge he
    -- none present
    · rcases storeZeroRange_writes_mem hDst wDst _ _ _ e he with h | h
      · exact Or.inl h
      · exact Or.inr ⟨by omega, by omega⟩
    -- normal only
    · rcases storeZeroRange_writes_mem hDst wDst _ _ _ e he with h | h
      · rcases set3_writes_mem _ _ hDst wDst _ e h with h2 | h2
        · exact Or.inl h2
        · exact Or.inr ⟨by omega, by omega⟩
      · exact Or.inr ⟨by omega, by omega⟩
    -- albedo only
    · rcases storeZeroRange_writes_mem hDst wDst _ _ _ e he with h | h
      · rcases set3_writes_mem _ _ hDst wDst _ e h with h2 | h2
        · exact Or.inl h2
        · exact Or.inr ⟨by omega, by omega⟩
      · exact Or.inr ⟨by omega, by omega⟩
    -- albedo and normal
    · rcases storeZeroRange_writes_mem hDst wDst _ _ _ e he with h | h
      · rcases set3_writes_mem _ _ hDst wDst _ e h with h2 | h2
        · rcases set3_writes_mem _ _ hDst wDst _ e h2 with h3 | h3
          · exact Or.inl h3
          · exact Or.inr ⟨by omega, by omega⟩
        · exact Or.inr ⟨by omega, by omega⟩
      · exact Or.inr ⟨by omega, by omega⟩
    -- color only
    · rcases storeZeroRange_writes_mem hDst wDst _ _ _ e he with h | h
      · rcases set3_writes_mem _ _ hDst wDst _ e h with h2 | h2
        · exact Or.inl h2
        · exact Or.inr ⟨by omega, by omega⟩
      · exact Or.inr ⟨by omega, by omega⟩
    -- color and normal
    · rcases storeZeroRange_writes_mem hDst wDst _ _ _ e he with h | h
      · rcases set3_writes_mem _ _ hDst wDst _ e h with h2 | h2
        · rcases set3_writes_mem _ _ hDst wDst _ e h2 with h3 | h3
          · exact Or.inl h3
          · exact Or.inr ⟨by omega, by omega⟩
        · exact Or.inr ⟨by omega, by omega⟩
      · exact Or.inr ⟨by omega, by omega⟩
    -- color and albedo
    · rcases storeZeroRange_writes_mem hDst wDst _ _ _ e he with h | h
      · rcases set3_writes_mem _ _ hDst wDst _ e h with h2 | h2
        · rcases set3_writes_mem _ _ hDst wDst _ e h2 with h3 | h3
          · exact Or.inl h3
          · exact Or.inr ⟨by omega, by omega⟩
        · exact Or.inr ⟨by omega, by omega⟩
      · exact Or.inr ⟨by omega, by omega⟩
    -- all present
    · rcases storeZeroRange_writes_mem hDst wDst _ _ _ e he with h | h
      · rcases set3_writes_mem _ _ hDst wDst _ e h with h2 | h2
        · rcases set3_writes_mem _ _ hDst wDst _ e h2 with h3 | h3
          · rcases set3_writes_mem _ _ hDst wDst _ e h3 with h4 | h4
            · exact Or.inl h4
            · exact Or.inr ⟨by omega, by omega⟩
          · exact Or.inr ⟨by omega, by omega⟩
        · exact Or.inr ⟨by omega, by omega⟩
      · exact Or.inr ⟨by omega, by omega⟩
  · rw [if_neg hin] at he
    rcases storeZeroRange_writes_mem hDst wDst _ _ _ e he with h | h
    · exact Or.inl h
    · exact Or.inr ⟨by omega, by omega⟩

theorem run_data_dst (k : InputReorder) (d : TensorAccessor) (hC : d.C = k.dst.C)
    (hDst wDst c : ℤ) (hc0 : 0 ≤ c) (hcC : c < k.dst.C) :
    (({ k with dst := d }).run hDst wDst).data c hDst wDst =
      (k.run hDst wDst).data c hDst wDst := by
  by_cases hin : inTile k.tile hDst wDst
  · rw [run_data_in ({ k with dst := d }) hDst wDst hin c hc0 (Or.inl (by simpa [hC] using hcC)),
      run_data_in k hDst wDst hin c hc0 (Or.inl hcC)]
    rfl
  · rw [run_data_out ({ k with dst := d }) hDst wDst hin c hc0 (by simpa [hC] using hcC),
      run_data_out k hDst wDst hin c hc0 hcC]

theorem runList_C (k : InputReorder) :
    ∀ (L : List (ℤ × ℤ)) (d : TensorAccessor),
      (L.foldl (fun d2 p => ({ k with dst := d2 }).run p.1 p.2) d).C = d.C := by
  intro L
  induction L with
  | nil => intro d; rfl
  | cons p L ih =>
    intro d
    rw [List.foldl_cons]
    exact (ih (({ k with dst := d }).run p.1 p.2)).trans
      (InputReorder.run_C ({ k with dst := d }) p.1 p.2)

theorem runList_data (k : InputReorder) (c : ℤ) (hc0 : 0 ≤ c) (hcC : c < k.dst.C) :
    ∀ (L : List (ℤ × ℤ)) (d : TensorAccessor), d.C = k.dst.C → ∀ (h w : ℤ),
      (L.foldl (fun d2 p => ({ k with dst := d2 }).run p.1 p.2) d).data c h w =
        if (h, w) ∈ L then (k.run h w).data c h w else d.data c h w := by
  intro L
  induction L with
  | nil => intro d hC h w; simp
  | cons p L ih =>
    intro d hC h w
    have hC2 : (({ k with dst := d }).run p.1 p.2).C = k.dst.C := by
      rw [InputReorder.run_C ({ k with dst := d }) p.1 p.2]; exact hC
    rw [List.foldl_cons]
    refine (ih (({ k with dst := d }).run p.1 p.2) hC2 h w).trans ?_
    by_cases hmem : (h, w) ∈ L
    · rw [if_pos hmem, if_pos (List.mem_cons_of_mem p hmem)]
    · rw [if_neg hmem]
      by_cases hp : (h, w) = p
      · rw [if_pos (by rw [hp]; exact List.mem_cons_self p L)]
        have hp1 : h = p.1 := by rw [← hp]
        have hp2 : w = p.2 := by rw [← hp]
        subst hp1; subst hp2
        exact run_data_dst k d hC p.1 p.2 c hc0 hcC
      · rw [if_neg (by simp [List.mem_cons, hp, hmem])]
        have hne : h ≠ p.1 ∨ w ≠ p.2 := by
          by_contra hcon
          push_neg at hcon
          exact hp (Prod.ext hcon.1 hcon.2)
        exact run_data_frame ({ k with dst := d }) p.1 p.2 c h w hne

theorem pixelList_mem (Hn Wn : ℕ) (h w : ℤ) :
    (h, w) ∈ pixelList Hn Wn ↔ 0 ≤ h ∧ h < (Hn : ℤ) ∧ 0 ≤ w ∧ w < (Wn : ℤ) := by
  unfold pixelList
  constructor
  · intro hmem
    rcases List.mem_flatMap.mp hmem with ⟨a, ha, hmem2⟩
    rcases List.mem_map.mp hmem2 with ⟨b, hb, heq⟩
    rw [List.mem_range] at ha
    rw [List.mem_range] at hb
    injection heq with e1 e2
    omega
  · rintro ⟨h0, hH, w0, wW⟩
    refine List.mem_flatMap.mpr ⟨h.toNat, List.mem_range.mpr (by omega), ?_⟩
    refine List.mem_map.mpr ⟨w.toNat, List.mem_range.mpr (by omega), ?_⟩
    rw [Int.toNat_of_nonneg h0, Int.toNat_of_nonneg w0]

theorem runAll_data (k : InputReorder) (c h w : ℤ) (hc0 : 0 ≤ c) (hcC : c < k.dst.C)
    (hh0 : 0 ≤ h) (hhH : h < k.dst.H) (hw0 : 0 ≤ w) (hwW : w < k.dst.W) :
    k.runAll.data c h w = (k.run h w).data c h w := by
  unfold InputReorder.runAll
  rw [runList_data k c hc0 hcC _ k.dst rfl h w,
    if_pos ((pixelList_mem _ _ h w).mpr ⟨hh0, by omega, hw0, by omega⟩)]

theorem runAll_C (k : InputReorder) : k.runAll.C = k.dst.C :=
  runList_C k _ k.dst

theorem colorTransform_eq_amended (tf : TransferFunction) (hdr snorm : Bool) (v : Vec3) :
    colorTransform tf hdr snorm v = amendedColorPipeline tf hdr snorm v := rfl

theorem albedoTransform_eq_spec (tf : TransferFunction) (cp : Bool) (v : Vec3) :
    albedoTransform tf cp v = specAlbedoPipeline tf cp v := by
  cases cp <;> rfl

theorem normalTransform_eq_spec (tf : TransferFunction) (cp : Bool) (v : Vec3) :
    normalTransform tf cp v = specNormalPipeline tf cp v := by
  cases cp <;> rfl

theorem fnanToZero_not_nan (x : FP) : fnanToZero x ≠ FP.nan := by
  cases x <;> simp [fnanToZero]

theorem fclamp_fin_finite (x : FP) (a b : ℚ) (hx : x ≠ FP.nan) (hab : a ≤ b) :
    (fclamp x (FP.fin a) (FP.fin b)).isFinite = true := by
  cases x with
  | nan => exact absurd rfl hx
  | inf =>
    show (fmin (fmax FP.inf (FP.fin a)) (FP.fin b)).isFinite = true
    have h1 : fmax FP.inf (FP.fin a) = FP.inf := by simp [fmax, FP.le]
    rw [h1]
    simp [fmin, FP.le, FP.isFinite]
  | ninf =>
    show (fmin (fmax FP.ninf (FP.fin a)) (FP.fin b)).isFinite = true
    have h1 : fmax FP.ninf (FP.fin a) = FP.fin a := by simp [fmax, FP.le]
    rw [h1]
    simp [fmin, FP.le, FP.isFinite, hab]
  | fin q =>
    show (fmin (fmax (FP.fin q) (FP.fin a)) (FP.fin b)).isFinite = true
    by_cases h1 : q ≤ a
    · rw [show fmax (FP.fin q) (FP.fin a) = FP.fin a by simp [fmax, FP.le, h1]]
      by_cases h2 : a ≤ b
      · simp [fmin, FP.le, h2, FP.isFinite]
      · simp [fmin, FP.le, h2, FP.isFinite]
    · rw [show fmax (FP.fin q) (FP.fin a) = FP.fin q by simp [fmax, FP.le, h1]]
      by_cases h2 : q ≤ b
      · simp [fmin, FP.le, h2, FP.isFinite]
      · simp [fmin, FP.le, h2, FP.isFinite]

theorem fclamp_zero (a b : ℚ) (ha : a ≤ 0) (hb : 0 ≤ b) :
    fclamp (FP.fin 0) (FP.fin a) (FP.fin b) = FP.fin 0 := by
  show fmin (fmax (FP.fin 0) (FP.fin a)) (FP.fin b) = FP.fin 0
  by_cases h1 : (0 : ℚ) ≤ a
  · have haz : a = 0 := le_antisymm ha h1
    subst haz
    rw [show fmax (FP.fin 0) (FP.fin 0) = FP.fin 0 by simp [fmax, FP.le]]
    simp [fmin, FP.le, hb]
  · rw [show fmax (FP.fin 0) (FP.fin a) = FP.fin 0 by simp [fmax, FP.le, h1]]
    simp [fmin, FP.le, hb]

theorem fhalf_finite (x : FP) (hx : x.isFinite = true) :
    (fadd (fmul x (FP.fin (1/2))) (FP.fin (1/2))).isFinite = true := by
  cases x <;> simp_all [fadd, fmul, FP.isFinite]

theorem fmul_nan_left (s : FP) : fmul FP.nan s = FP.nan := by
  cases s <;> rfl

theorem fnanToZero_nan : fnanToZero FP.nan = FP.fin 0 := rfl

theorem vclamp_nanToZero_allFinite (v : Vec3) (a b : ℚ) (hab : a ≤ b) :
    allFinite (vclamp (vnanToZero v) (FP.fin a) (FP.fin b)) :=
  ⟨fclamp_fin_finite _ a b (fnanToZero_not_nan _) hab,
   fclamp_fin_finite _ a b (fnanToZero_not_nan _) hab,
   fclamp_fin_finite _ a b (fnanToZero_not_nan _) hab⟩

theorem vhalfRemap_allFinite (v : Vec3) (hv : allFinite v) : allFinite (vhalfRemap v) :=
  ⟨fhalf_finite _ hv.1, fhalf_finite _ hv.2.1, fhalf_finite _ hv.2.2⟩

theorem inTileVal_color (k : InputReorder) (hc : k.color.present = true)
    (hS wS c : ℤ) (h0 : 0 ≤ c) (h3 : c < 3) :
    inTileVal k hS wS c =
      vcomp (colorTransform k.transferFunc k.hdr k.snorm (k.color.get3 hS wS)) c.toNat := by
  unfold inTileVal
  rw [if_pos ⟨hc, h0, h3⟩]

theorem inTileVal_albedo (k : InputReorder) (ha : k.albedo.present = true)
    (hS wS c : ℤ) (hlo : (if k.color.present then (3 : ℤ) else 0) ≤ c)
    (hhi : c < (if k.color.present then (3 : ℤ) else 0) + 3) :
    inTileVal k hS wS c =
      vcomp (albedoTransform k.transferFunc k.color.present (k.albedo.get3 hS wS))
        (c - (if k.color.present then (3 : ℤ) else 0)).toNat := by
  unfold inTileVal
  rw [if_neg, if_pos ⟨ha, hlo, hhi⟩]
  rintro ⟨hcp, -, hc3⟩
  rw [hcp] at hlo
  simp at hlo
  omega

theorem inTileVal_normal (k : InputReorder) (hn : k.normal.present = true)
    (hS wS c : ℤ)
    (hlo : (if k.color.present then (3 : ℤ) else 0) +
      (if k.albedo.present then (3 : ℤ) else 0) ≤ c)
    (hhi : c < (if k.color.present then (3 : ℤ) else 0) +
      (if k.albedo.present then (3 : ℤ) else 0) + 3) :
    inTileVal k hS wS c =
      vcomp (normalTransform k.transferFunc k.color.present (k.normal.get3 hS wS))
        (c - ((if k.color.present then (3 : ℤ) else 0) +
          (if k.albedo.present then (3 : ℤ) else 0))).toNat := by
  unfold inTileVal
  rw [if_neg, if_neg, if_pos ⟨hn, hlo, hhi⟩]
  · rintro ⟨hap, -, hc3⟩
    rw [hap] at hlo
    simp at hlo
    split_ifs at hlo hc3 <;> omega
  · rintro ⟨hcp, -, hc3⟩
    rw [hcp] at hlo
    simp at hlo
    split_ifs at hlo <;> omega

theorem inTileVal_zero (k : InputReorder) (hS wS c : ℤ)
    (hge : presentChans k ≤ c) :
    inTileVal k hS wS c = FP.fin 0 := by
  unfold presentChans at hge
  unfold inTileVal
  rw [if_neg, if_neg, if_neg]
  · rintro ⟨hnp, hlo, hhi⟩
    rw [hnp] at hge
    simp at hge
    split_ifs at hge hlo hhi <;> omega
  · rintro ⟨hap, hlo, hhi⟩
    rw [hap] at hge
    simp at hge
    split_ifs at hge hlo hhi <;> omega
  · rintro ⟨hcp, -, hc3⟩
    rw [hcp] at hge
    simp at hge
    split_ifs at hge <;> omega

theorem presentChans_nonneg (k : InputReorder) : 0 ≤ presentChans k := by
  unfold presentChans
  split_ifs <;> omega

/-- C1 (counterexample): the claim's color pipeline clamps the hdr case to
+infinity, but the kernel clamps to the largest finite float: at an
in-tile pixel whose color source is +infinity, with hdr set and a linear
transfer function, the stored channel 0 differs from the claimed pipeline. -/
theorem claim1_counterexample :
    inTile kC1.tile 0 0 ∧ kC1.color.present = true ∧ kC1.hdr = true ∧
    (kC1.run 0 0).data 0 0 0 ≠
      (specColorPipeline kC1.transferFunc kC1.hdr kC1.snorm
        (kC1.color.get3 (Tile.hSrc kC1.tile 0) (Tile.wSrc kC1.tile 0))).x := by
  refine ⟨by decide, rfl, rfl, ?_⟩
  decide

/-- C1 (amended): at every in-tile destination pixel with a color image
present, channels 0..2 are produced by: multiply by the transfer-function
input scale, NaN to 0, clamp to lower bound (snorm ? -1 : 0) and upper bound
(hdr ? FLT_MAX, the largest finite float : 1), then the snorm remap, then
the transfer-function forward, in exactly that order. -/
theorem claim1_amended_theorem (k : InputReorder) (hDst wDst : ℤ)
    (hcol : k.color.present = true) (hin : inTile k.tile hDst wDst) :
    (k.run hDst wDst).data 0 hDst wDst =
      (amendedColorPipeline k.transferFunc k.hdr k.snorm
        (k.color.get3 (k.tile.hSrc hDst) (k.tile.wSrc wDst))).x ∧
    (k.run hDst wDst).data 1 hDst wDst =
      (amendedColorPipeline k.transferFunc k.hdr k.snorm
        (k.color.get3 (k.tile.hSrc hDst) (k.tile.wSrc wDst))).y ∧
    (k.run hDst wDst).data 2 hDst wDst =
      (amendedColorPipeline k.transferFunc k.hdr k.snorm
        (k.color.get3 (k.tile.hSrc hDst) (k.tile.wSrc wDst))).z := by
  have hpc : (3 : ℤ) ≤ presentChans k := by
    simp [presentChans, hcol]
    split_ifs <;> omega
  refine ⟨?_, ?_, ?_⟩
  · rw [run_data_in k hDst wDst hin 0 (by omega) (Or.inr (by omega)),
      inTileVal_color k hcol _ _ 0 (by omega) (by omega), colorTransform_eq_amended]
    rfl
  · rw [run_data_in k hDst wDst hin 1 (by omega) (Or.inr (by omega)),
      inTileVal_color k hcol _ _ 1 (by omega) (by omega), colorTransform_eq_amended]
    rfl
  · rw [run_data_in k hDst wDst hin 2 (by omega) (Or.inr (by omega)),
      inTileVal_color k hcol _ _ 2 (by omega) (by omega), colorTransform_eq_amended]
    rfl

/-- C1 witness: the amended theorem applied to the concrete kernel kC1 at
pixel (0,0). -/
theorem claim1_witness :
    kC1.color.present = true ∧ inTile kC1.tile 0 0 ∧
    ((kC1.run 0 0).data 0 0 0 =
      (amendedColorPipeline kC1.transferFunc kC1.hdr kC1.snorm
        (kC1.color.get3 (kC1.tile.hSrc 0) (kC1.tile.wSrc 0))).x ∧
    (kC1.run 0 0).data 1 0 0 =
      (amendedColorPipeline kC1.transferFunc kC1.hdr kC1.snorm
        (kC1.color.get3 (kC1.tile.hSrc 0) (kC1.tile.wSrc 0))).y ∧
    (kC1.run 0 0).data 2 0 0 =
      (amendedColorPipeline kC1.transferFunc kC1.hdr kC1.snorm
        (kC1.color.get3 (kC1.tile.hSrc 0) (kC1.tile.wSrc 0))).z) :=
  ⟨rfl, by decide, claim1_amended_theorem kC1 0 0 rfl (by decide)⟩

/-- C2: out-of-tile destination pixels get 0 written to all C channels, and
consequently, for a tile with hDstBegin > 0 or H < dst.H, every destination
pixel outside [hDstBegin, hDstBegin+H) x [wDstBegin, wDstBegin+W) is zero in
all C channels after the full dispatch. -/
theorem claim2_theorem (k : InputReorder) :
    (∀ hDst wDst : ℤ, ¬ inTile k.tile hDst wDst → ∀ c : ℤ, 0 ≤ c → c < k.dst.C →
      (k.run hDst wDst).data c hDst wDst = FP.fin 0) ∧
    ((0 < k.tile.hDstBegin ∨ k.tile.H < k.dst.H) → ∀ h w : ℤ,
      0 ≤ h → h < k.dst.H → 0 ≤ w → w < k.dst.W →
      ¬(k.tile.hDstBegin ≤ h ∧ h < k.tile.hDstBegin + k.tile.H ∧
        k.tile.wDstBegin ≤ w ∧ w < k.tile.wDstBegin + k.tile.W) →
      ∀ c : ℤ, 0 ≤ c → c < k.dst.C → k.runAll.data c h w = FP.fin 0) := by
  constructor
  · intro hDst wDst hout c hc0 hcC
    exact run_data_out k hDst wDst hout c hc0 hcC
  · intro _ h w hh0 hhH hw0 hwW hrect c hc0 hcC
    rw [runAll_data k c h w hc0 hcC hh0 hhH hw0 hwW]
    refine run_data_out k h w ?_ c hc0 hcC
    unfold inTile
    omega

/-- C2 witness: the concrete kernel kC2 (tile at (1,1) in a 3x3 destination)
has zero at the border pixel (0,0), both for one kernel invocation and after
the full dispatch. -/
theorem claim2_witness :
    (¬ inTile kC2.tile 0 0) ∧ 0 < kC2.tile.hDstBegin ∧
    (kC2.run 0 0).data 0 0 0 = FP.fin 0 ∧
    kC2.runAll.data 0 0 0 = FP.fin 0 :=
  ⟨by decide, by decide,
   (claim2_theorem kC2).1 0 0 (by decide) 0 (by decide) (by decide),
   (claim2_theorem kC2).2 (Or.inl (by decide)) 0 0 (by decide) (by decide)
     (by decide) (by decide) (by decide) 0 (by decide) (by decide)⟩

/-- C3: in-tile channel layout: with color+albedo+normal present and C = 9,
channels [0..3) carry the transformed color, [3..6) the transformed albedo,
[6..9) the transformed normal; with only color present and C = 9, channels
[3..9) are zero; in general every channel c with presentChans <= c < C is
written 0. -/
theorem claim3_theorem (k : InputReorder) (hDst wDst : ℤ) (hin : inTile k.tile hDst wDst) :
    ((k.color.present = true ∧ k.albedo.present = true ∧ k.normal.present = true ∧
        k.dst.C = 9) →
      ((k.run hDst wDst).data 0 hDst wDst = (colorTransform k.transferFunc k.hdr k.snorm
          (k.color.get3 (k.tile.hSrc hDst) (k.tile.wSrc wDst))).x ∧
       (k.run hDst wDst).data 1 hDst wDst = (colorTransform k.transferFunc k.hdr k.snorm
          (k.color.get3 (k.tile.hSrc hDst) (k.tile.wSrc wDst))).y ∧
       (k.run hDst wDst).data 2 hDst wDst = (colorTransform k.transferFunc k.hdr k.snorm
          (k.color.get3 (k.tile.hSrc hDst) (k.tile.wSrc wDst))).z ∧
       (k.run hDst wDst).data 3 hDst wDst = (albedoTransform k.transferFunc k.color.present
          (k.albedo.get3 (k.tile.hSrc hDst) (k.tile.wSrc wDst))).x ∧
       (k.run hDst wDst).data 4 hDst wDst = (albedoTransform k.transferFunc k.color.present
          (k.albedo.get3 (k.tile.hSrc hDst) (k.tile.wSrc wDst))).y ∧
       (k.run hDst wDst).data 5 hDst wDst = (albedoTransform k.transferFunc k.color.present
          (k.albedo.get3 (k.tile.hSrc hDst) (k.tile.wSrc wDst))).z ∧
       (k.run hDst wDst).data 6 hDst wDst = (normalTransform k.transferFunc k.color.present
          (k.normal.get3 (k.tile.hSrc hDst) (k.tile.wSrc wDst))).x ∧
       (k.run hDst wDst).data 7 hDst wDst = (normalTransform k.transferFunc k.color.present
          (k.normal.get3 (k.tile.hSrc hDst) (k.tile.wSrc wDst))).y ∧
       (k.run hDst wDst).data 8 hDst wDst = (normalTransform k.transferFunc k.color.present
          (k.normal.get3 (k.tile.hSrc hDst) (k.tile.wSrc wDst))).z)) ∧
    ((k.color.present = true ∧ k.albedo.present = false ∧ k.normal.present = false ∧
        k.dst.C = 9) →
      ∀ c : ℤ, 3 ≤ c → c < 9 → (k.run hDst wDst).data c hDst wDst = FP.fin 0) ∧
    (∀ c : ℤ, presentChans k ≤ c → c < k.dst.C →
      (k.run hDst wDst).data c hDst wDst = FP.fin 0) := by
  refine ⟨?_, ?_, ?_⟩
  · rintro ⟨hc, ha, hn, hC⟩
    refine ⟨?_, ?_, ?_, ?_, ?_, ?_, ?_, ?_, ?_⟩
    · rw [run_data_in k hDst wDst hin 0 (by omega) (Or.inl (by omega)),
        inTileVal_color k hc _ _ 0 (by omega) (by omega)]
      rfl
    · rw [run_data_in k hDst wDst hin 1 (by omega) (Or.inl (by omega)),
        inTileVal_color k hc _ _ 1 (by omega) (by omega)]
      rfl
    · rw [run_data_in k hDst wDst hin 2 (by omega) (Or.inl (by omega)),
        inTileVal_color k hc _ _ 2 (by omega) (by omega)]
      rfl
    · rw [run_data_in k hDst wDst hin 3 (by omega) (Or.inl (by omega)),
        inTileVal_albedo k ha _ _ 3 (by norm_num [hc]) (by norm_num [hc])]
      simp [hc, vcomp]
    · rw [run_data_in k hDst wDst hin 4 (by omega) (Or.inl (by omega)),
        inTileVal_albedo k ha _ _ 4 (by norm_num [hc]) (by norm_num [hc])]
      simp [hc, vcomp]
    · rw [run_data_in k hDst wDst hin 5 (by omega) (Or.inl (by omega)),
        inTileVal_albedo k ha _ _ 5 (by norm_num [hc]) (by norm_num [hc])]
      simp [hc, vcomp]
    · rw [run_data_in k hDst wDst hin 6 (by omega) (Or.inl (by omega)),
        inTileVal_normal k hn _ _ 6 (by norm_num [hc, ha]) (by norm_num [hc, ha])]
      simp [hc, ha, vcomp]
    · rw [run_data_in k hDst wDst hin 7 (by omega) (Or.inl (by omega)),
        inTileVal_normal k hn _ _ 7 (by norm_num [hc, ha]) (by norm_num [hc, ha])]
      simp [hc, ha, vcomp]
    · rw [run_data_in k hDst wDst hin 8 (by omega) (Or.inl (by omega)),
        inTileVal_normal k hn _ _ 8 (by norm_num [hc, ha]) (by norm_num [hc, ha])]
      simp [hc, ha, vcomp]
  · rintro ⟨hc, ha, hn, hC⟩
    intro c hc3 hc9
    rw [run_data_in k hDst wDst hin c (by omega) (Or.inl (by omega)),
      inTileVal_zero k _ _ c (by simp [presentChans, hc, ha, hn]; omega)]
  · intro c hge hcC
    rw [run_data_in k hDst wDst hin c (by have := presentChans_nonneg k; omega) (Or.inl hcC),
      inTileVal_zero k _ _ c hge]

/-- C4: at every in-tile pixel with an albedo image, the albedo channels
(at offset 3 when color is present, else 0) are produced by: input scale only
when no color image is present, NaN to 0, clamp to [0,1], forward transfer
function only when no color image is present. -/
theorem claim4_theorem (k : InputReorder) (hDst wDst : ℤ)
    (ha : k.albedo.present = true) (hin : inTile k.tile hDst wDst) :
    (k.run hDst wDst).data (if k.color.present then (3 : ℤ) else 0) hDst wDst =
      (specAlbedoPipeline k.transferFunc k.color.present
        (k.albedo.get3 (k.tile.hSrc hDst) (k.tile.wSrc wDst))).x ∧
    (k.run hDst wDst).data ((if k.color.present then (3 : ℤ) else 0) + 1) hDst wDst =
      (specAlbedoPipeline k.transferFunc k.color.present
        (k.albedo.get3 (k.tile.hSrc hDst) (k.tile.wSrc wDst))).y ∧
    (k.run hDst wDst).data ((if k.color.present then (3 : ℤ) else 0) + 2) hDst wDst =
      (specAlbedoPipeline k.transferFunc k.color.present
        (k.albedo.get3 (k.tile.hSrc hDst) (k.tile.wSrc wDst))).z := by
  have hpc : (if k.color.present then (3 : ℤ) else 0) + 3 ≤ presentChans k := by
    simp [presentChans, ha]
    split_ifs <;> omega
  have h0le : (0 : ℤ) ≤ (if k.color.present then (3 : ℤ) else 0) := by
    split_ifs <;> omega
  refine ⟨?_, ?_, ?_⟩
  · rw [run_data_in k hDst wDst hin _ (by omega) (Or.inr (by omega)),
      inTileVal_albedo k ha _ _ _ (by omega) (by omega), albedoTransform_eq_spec]
    simp [vcomp]
  · rw [run_data_in k hDst wDst hin _ (by omega) (Or.inr (by omega)),
      inTileVal_albedo k ha _ _ _ (by omega) (by omega), albedoTransform_eq_spec]
    simp [vcomp]
  · rw [run_data_in k hDst wDst hin _ (by omega) (Or.inr (by omega)),
      inTileVal_albedo k ha _ _ _ (by omega) (by omega), albedoTransform_eq_spec]
    simp [vcomp]

/-- C5: at every in-tile pixel with a normal image, the normal channels are
produced by: input scale only when no color image is present, NaN to 0, clamp
to [-1,1], then v*0.5+0.5; the forward transfer function is never applied. -/
theorem claim5_theorem (k : InputReorder) (hDst wDst : ℤ)
    (hn : k.normal.present = true) (hin : inTile k.tile hDst wDst) :
    (k.run hDst wDst).data ((if k.color.present then (3 : ℤ) else 0) +
        (if k.albedo.present then (3 : ℤ) else 0)) hDst wDst =
      (specNormalPipeline k.transferFunc k.color.present
        (k.normal.get3 (k.tile.hSrc hDst) (k.tile.wSrc wDst))).x ∧
    (k.run hDst wDst).data ((if k.color.present then (3 : ℤ) else 0) +
        (if k.albedo.present then (3 : ℤ) else 0) + 1) hDst wDst =
      (specNormalPipeline k.transferFunc k.color.present
        (k.normal.get3 (k.tile.hSrc hDst) (k.tile.wSrc wDst))).y ∧
    (k.run hDst wDst).data ((if k.color.present then (3 : ℤ) else 0) +
        (if k.albedo.present then (3 : ℤ) else 0) + 2) hDst wDst =
      (specNormalPipeline k.transferFunc k.color.present
        (k.normal.get3 (k.tile.hSrc hDst) (k.tile.wSrc wDst))).z := by
  have hpc : (if k.color.present then (3 : ℤ) else 0) +
      (if k.albedo.present then (3 : ℤ) else 0) + 3 ≤ presentChans k := by
    simp [presentChans, hn]
  have h0le : (0 : ℤ) ≤ (if k.color.present then (3 : ℤ) else 0) +
      (if k.albedo.present then (3 : ℤ) else 0) := by
    split_ifs <;> omega
  refine ⟨?_, ?_, ?_⟩
  · rw [run_data_in k hDst wDst hin _ (by omega) (Or.inr (by omega)),
      inTileVal_normal k hn _ _ _ (by omega) (by omega), normalTransform_eq_spec]
    simp [vcomp]
  · rw [run_data_in k hDst wDst hin _ (by omega) (Or.inr (by omega)),
      inTileVal_normal k hn _ _ _ (by omega) (by omega), normalTransform_eq_spec]
    simp [vcomp]
  · rw [run_data_in k hDst wDst hin _ (by omega) (Or.inr (by omega)),
      inTileVal_normal k hn _ _ _ (by omega) (by omega), normalTransform_eq_spec]
    simp [vcomp]

/-- C3 witness: the layout theorem at the concrete kernels kC3 (all three
images) and kC3b (color only). -/
theorem claim3_witness :
    inTile kC3.tile 0 0 ∧ kC3.dst.C = 9 ∧
    (kC3.run 0 0).data 3 0 0 = (albedoTransform kC3.transferFunc kC3.color.present
      (kC3.albedo.get3 (kC3.tile.hSrc 0) (kC3.tile.wSrc 0))).x ∧
    (kC3b.run 0 0).data 4 0 0 = FP.fin 0 ∧
    (kC3b.run 0 0).data 5 0 0 = FP.fin 0 :=
  ⟨by decide, rfl,
   ((claim3_theorem kC3 0 0 (by decide)).1 ⟨rfl, rfl, rfl, rfl⟩).2.2.2.1,
   (claim3_theorem kC3b 0 0 (by decide)).2.1 ⟨rfl, rfl, rfl, rfl⟩ 4 (by decide) (by decide),
   (claim3_theorem kC3b 0 0 (by decide)).2.2 5 (by decide) (by decide)⟩

/-- C4 witness: the albedo theorem at the concrete kernel kC3 (color present,
so the albedo channels begin at 3 and neither scale nor forward applies). -/
theorem claim4_witness :
    kC3.albedo.present = true ∧ inTile kC3.tile 1 1 ∧
    ((kC3.run 1 1).data (if kC3.color.present then (3 : ℤ) else 0) 1 1 =
      (specAlbedoPipeline kC3.transferFunc kC3.color.present
        (kC3.albedo.get3 (kC3.tile.hSrc 1) (kC3.tile.wSrc 1))).x ∧
    (kC3.run 1 1).data ((if kC3.color.present then (3 : ℤ) else 0) + 1) 1 1 =
      (specAlbedoPipeline kC3.transferFunc kC3.color.present
        (kC3.albedo.get3 (kC3.tile.hSrc 1) (kC3.tile.wSrc 1))).y ∧
    (kC3.run 1 1).data ((if kC3.color.present then (3 : ℤ) else 0) + 2) 1 1 =
      (specAlbedoPipeline kC3.transferFunc kC3.color.present
        (kC3.albedo.get3 (kC3.tile.hSrc 1) (kC3.tile.wSrc 1))).z) :=
  ⟨rfl, by decide, claim4_theorem kC3 1 1 rfl (by decide)⟩

/-- C5 witness: the normal theorem at the concrete kernel kC3. -/
theorem claim5_witness :
    kC3.normal.present = true ∧ inTile kC3.tile 1 0 ∧
    ((kC3.run 1 0).data ((if kC3.color.present then (3 : ℤ) else 0) +
        (if kC3.albedo.present then (3 : ℤ) else 0)) 1 0 =
      (specNormalPipeline kC3.transferFunc kC3.color.present
        (kC3.normal.get3 (kC3.tile.hSrc 1) (kC3.tile.wSrc 0))).x ∧
    (kC3.run 1 0).data ((if kC3.color.present then (3 : ℤ) else 0) +
        (if kC3.albedo.present then (3 : ℤ) else 0) + 1) 1 0 =
      (specNormalPipeline kC3.transferFunc kC3.color.present
        (kC3.normal.get3 (kC3.tile.hSrc 1) (kC3.tile.wSrc 0))).y ∧
    (kC3.run 1 0).data ((if kC3.color.present then (3 : ℤ) else 0) +
        (if kC3.albedo.present then (3 : ℤ) else 0) + 2) 1 0 =
      (specNormalPipeline kC3.transferFunc kC3.color.present
        (kC3.normal.get3 (kC3.tile.hSrc 1) (kC3.tile.wSrc 0))).z) :=
  ⟨rfl, by decide, claim5_theorem kC3 1 0 rfl (by decide)⟩

theorem vcomp_vscale (v : Vec3) (s : FP) (i : ℕ) :
    vcomp (vscale v s) i = fmul (vcomp v i) s := by
  rcases i with _ | _ | i <;> rfl

theorem vcomp_vnanToZero (v : Vec3) (i : ℕ) :
    vcomp (vnanToZero v) i = fnanToZero (vcomp v i) := by
  rcases i with _ | _ | i <;> rfl

theorem vcomp_vclamp (v : Vec3) (lo hi : FP) (i : ℕ) :
    vcomp (vclamp v lo hi) i = fclamp (vcomp v i) lo hi := by
  rcases i with _ | _ | i <;> rfl

theorem vcomp_vhalfRemap (v : Vec3) (i : ℕ) :
    vcomp (vhalfRemap v) i = fadd (fmul (vcomp v i) (FP.fin (1/2))) (FP.fin (1/2)) := by
  rcases i with _ | _ | i <;> rfl

theorem allFinite_comp (v : Vec3) (i : ℕ) (hv : allFinite v) :
    (vcomp v i).isFinite = true := by
  rcases i with _ | _ | i
  · exact hv.1
  · exact hv.2.1
  · exact hv.2.2

theorem fhalf_zero : fadd (fmul (FP.fin 0) (FP.fin (1/2))) (FP.fin (1/2)) = FP.fin (1/2) := by
  show fadd (FP.fin (0 * (1/2))) (FP.fin (1/2)) = FP.fin (1/2)
  rw [show (0 : ℚ) * (1/2) = 0 by norm_num]
  show FP.fin (0 + 1/2) = FP.fin (1/2)
  norm_num

theorem colorTransform_forward (tf : TransferFunction) (hdr snorm : Bool) (v : Vec3) :
    colorTransform tf hdr snorm v = tf.forward (colorPre tf hdr snorm v) := rfl

theorem albedoTransform_forward (tf : TransferFunction) (cp : Bool) (v : Vec3) :
    albedoTransform tf cp v =
      (if cp then albedoPre tf cp v else tf.forward (albedoPre tf cp v)) := by
  cases cp <;> rfl

theorem normalTransform_pre (tf : TransferFunction) (cp : Bool) (v : Vec3) :
    normalTransform tf cp v =
      vhalfRemap (vclamp (vnanToZero (if !cp then vscale v tf.inputScale else v))
        (FP.fin (-1)) (FP.fin 1)) := rfl

theorem colorPre_allFinite (tf : TransferFunction) (hdr snorm : Bool) (v : Vec3) :
    allFinite (colorPre tf hdr snorm v) := by
  unfold colorPre
  rcases hsn : snorm <;> rcases hh : hdr <;>
    simp only [if_true, if_false, Bool.false_eq_true, Bool.true_eq_false, ite_true, ite_false]
  · exact vclamp_nanToZero_allFinite _ 0 1 (by norm_num)
  · exact vclamp_nanToZero_allFinite _ 0 floatMax (by norm_num [floatMax])
  · exact vhalfRemap_allFinite _ (vclamp_nanToZero_allFinite _ (-1) 1 (by norm_num))
  · exact vhalfRemap_allFinite _ (vclamp_nanToZero_allFinite _ (-1) floatMax
      (by norm_num [floatMax]))

theorem colorPre_comp_nan (tf : TransferFunction) (hdr snorm : Bool) (v : Vec3) (i : ℕ)
    (hnan : vcomp v i = FP.nan) :
    vcomp (colorPre tf hdr snorm v) i = FP.fin (if snorm then 1/2 else 0) := by
  unfold colorPre
  have hz : fnanToZero (fmul (vcomp v i) tf.inputScale) = FP.fin 0 := by
    rw [hnan, fmul_nan_left, fnanToZero_nan]
  rcases hsn : snorm <;> rcases hh : hdr <;>
    simp only [if_true, if_false, Bool.false_eq_true, Bool.true_eq_false, ite_true, ite_false]
  · rw [vcomp_vclamp, vcomp_vnanToZero, vcomp_vscale, hz]
    exact fclamp_zero 0 1 (by norm_num) (by norm_num)
  · rw [vcomp_vclamp, vcomp_vnanToZero, vcomp_vscale, hz]
    exact fclamp_zero 0 floatMax (by norm_num) (by norm_num [floatMax])
  · rw [vcomp_vhalfRemap, vcomp_vclamp, vcomp_vnanToZero, vcomp_vscale, hz,
      fclamp_zero (-1) 1 (by norm_num) (by norm_num), fhalf_zero]
  · rw [vcomp_vhalfRemap, vcomp_vclamp, vcomp_vnanToZero, vcomp_vscale, hz,
      fclamp_zero (-1) floatMax (by norm_num) (by norm_num [floatMax]), fhalf_zero]

theorem albedoPre_allFinite (tf : TransferFunction) (cp : Bool) (v : Vec3) :
    allFinite (albedoPre tf cp v) := by
  unfold albedoPre
  exact vclamp_nanToZero_allFinite _ 0 1 (by norm_num)

theorem albedoPre_comp_nan (tf : TransferFunction) (cp : Bool) (v : Vec3) (i : ℕ)
    (hnan : vcomp v i = FP.nan) :
    vcomp (albedoPre tf cp v) i = FP.fin 0 := by
  unfold albedoPre
  rcases hcp : cp <;>
    simp only [Bool.not_false, Bool.not_true, if_true, if_false, Bool.false_eq_true,
      Bool.true_eq_false, ite_true, ite_false]
  · rw [vcomp_vclamp, vcomp_vnanToZero, vcomp_vscale, hnan, fmul_nan_left, fnanToZero_nan]
    exact fclamp_zero 0 1 (by norm_num) (by norm_num)
  · rw [vcomp_vclamp, vcomp_vnanToZero, hnan, fnanToZero_nan]
    exact fclamp_zero 0 1 (by norm_num) (by norm_num)

theorem normalTransform_comp_nan (tf : TransferFunction) (cp : Bool) (v : Vec3) (i : ℕ)
    (hnan : vcomp v i = FP.nan) :
    vcomp (normalTransform tf cp v) i = FP.fin (1/2) := by
  rw [normalTransform_pre]
  rcases hcp : cp <;>
    simp only [Bool.not_false, Bool.not_true, if_true, if_false, Bool.false_eq_true,
      Bool.true_eq_false, ite_true, ite_false]
  · rw [vcomp_vhalfRemap, vcomp_vclamp, vcomp_vnanToZero, vcomp_vscale, hnan, fmul_nan_left,
      fnanToZero_nan, fclamp_zero (-1) 1 (by norm_num) (by norm_num), fhalf_zero]
  · rw [vcomp_vhalfRemap, vcomp_vclamp, vcomp_vnanToZero, hnan, fnanToZero_nan,
      fclamp_zero (-1) 1 (by norm_num) (by norm_num), fhalf_zero]

/-- C6: a NaN component of any present source image reaches the destination
as a finite value: the NaN becomes 0 before the clamp, and the snorm remap /
forward transfer function are then applied to that sanitized value.  For
color and albedo the vector entering the forward transfer function is finite
with the NaN component sanitized to its clamped-zero value; for normal the
stored value is exactly 0*0.5+0.5 = 1/2. -/
theorem claim6_theorem (k : InputReorder) (hDst wDst : ℤ) (hin : inTile k.tile hDst wDst)
    (hfwd : ∀ v : Vec3, allFinite v → allFinite (k.transferFunc.forward v)) :
    (∀ i : ℕ, i < 3 → k.color.present = true →
      vcomp (k.color.get3 (k.tile.hSrc hDst) (k.tile.wSrc wDst)) i = FP.nan →
      ∃ u : Vec3, allFinite u ∧
        vcomp u i = FP.fin (if k.snorm then 1/2 else 0) ∧
        (k.run hDst wDst).data (i : ℤ) hDst wDst = vcomp (k.transferFunc.forward u) i ∧
        ((k.run hDst wDst).data (i : ℤ) hDst wDst).isFinite = true) ∧
    (∀ i : ℕ, i < 3 → k.albedo.present = true →
      vcomp (k.albedo.get3 (k.tile.hSrc hDst) (k.tile.wSrc wDst)) i = FP.nan →
      ∃ u : Vec3, allFinite u ∧ vcomp u i = FP.fin 0 ∧
        (k.run hDst wDst).data ((if k.color.present then (3 : ℤ) else 0) + (i : ℤ))
            hDst wDst =
          vcomp (if k.color.present then u else k.transferFunc.forward u) i ∧
        ((k.run hDst wDst).data ((if k.color.present then (3 : ℤ) else 0) + (i : ℤ))
            hDst wDst).isFinite = true) ∧
    (∀ i : ℕ, i < 3 → k.normal.present = true →
      vcomp (k.normal.get3 (k.tile.hSrc hDst) (k.tile.wSrc wDst)) i = FP.nan →
      (k.run hDst wDst).data ((if k.color.present then (3 : ℤ) else 0) +
          (if k.albedo.present then (3 : ℤ) else 0) + (i : ℤ)) hDst wDst =
        FP.fin (1/2)) := by
  refine ⟨?_, ?_, ?_⟩
  · intro i hi hc hnan
    have hpc : (3 : ℤ) ≤ presentChans k := by
      simp [presentChans, hc]
      split_ifs <;> omega
    have hd : (k.run hDst wDst).data (i : ℤ) hDst wDst =
        vcomp (colorTransform k.transferFunc k.hdr k.snorm
          (k.color.get3 (k.tile.hSrc hDst) (k.tile.wSrc wDst))) i := by
      rw [run_data_in k hDst wDst hin (i : ℤ) (by omega) (Or.inr (by omega)),
        inTileVal_color k hc _ _ (i : ℤ) (by omega) (by omega)]
      have hidx : ((i : ℤ)).toNat = i := by omega
      rw [hidx]
    refine ⟨colorPre k.transferFunc k.hdr k.snorm
        (k.color.get3 (k.tile.hSrc hDst) (k.tile.wSrc wDst)),
      colorPre_allFinite _ _ _ _, colorPre_comp_nan _ _ _ _ i hnan, ?_, ?_⟩
    · rw [hd, colorTransform_forward]
    · rw [hd, colorTransform_forward]
      exact allFinite_comp _ i (hfwd _ (colorPre_allFinite _ _ _ _))
  · intro i hi ha hnan
    have hb0 : (0 : ℤ) ≤ (if k.color.present then (3 : ℤ) else 0) := by
      split_ifs <;> omega
    have hpc : (if k.color.present then (3 : ℤ) else 0) + 3 ≤ presentChans k := by
      simp [presentChans, ha]
      split_ifs <;> omega
    have hd : (k.run hDst wDst).data ((if k.color.present then (3 : ℤ) else 0) + (i : ℤ))
        hDst wDst =
        vcomp (albedoTransform k.transferFunc k.color.present
          (k.albedo.get3 (k.tile.hSrc hDst) (k.tile.wSrc wDst))) i := by
      rw [run_data_in k hDst wDst hin _ (by omega) (Or.inr (by omega)),
        inTileVal_albedo k ha _ _ _ (by omega) (by omega)]
      have hidx : ((if k.color.present then (3 : ℤ) else 0) + (i : ℤ) -
          (if k.color.present then (3 : ℤ) else 0)).toNat = i := by omega
      rw [hidx]
    refine ⟨albedoPre k.transferFunc k.color.present
        (k.albedo.get3 (k.tile.hSrc hDst) (k.tile.wSrc wDst)),
      albedoPre_allFinite _ _ _, albedoPre_comp_nan _ _ _ i hnan, ?_, ?_⟩
    · rw [hd, albedoTransform_forward]
    · rw [hd, albedoTransform_forward]
      rcases hcp : k.color.present <;>
        simp only [hcp, Bool.false_eq_true, Bool.true_eq_false, ite_true, ite_false,
          if_true, if_false]
      · exact allFinite_comp _ i (hfwd _ (albedoPre_allFinite _ _ _))
      · exact allFinite_comp _ i (albedoPre_allFinite _ _ _)
  · intro i hi hn hnan
    have hb0 : (0 : ℤ) ≤ (if k.color.present then (3 : ℤ) else 0) +
        (if k.albedo.present then (3 : ℤ) else 0) := by
      split_ifs <;> omega
    have hpc : (if k.color.present then (3 : ℤ) else 0) +
        (if k.albedo.present then (3 : ℤ) else 0) + 3 ≤ presentChans k := by
      simp [presentChans, hn]
    rw [run_data_in k hDst wDst hin _ (by omega) (Or.inr (by omega)),
      inTileVal_normal k hn _ _ _ (by omega) (by omega)]
    have hidx : ((if k.color.present then (3 : ℤ) else 0) +
        (if k.albedo.present then (3 : ℤ) else 0) + (i : ℤ) -
        ((if k.color.present then (3 : ℤ) else 0) +
          (if k.albedo.present then (3 : ℤ) else 0))).toNat = i := by omega
    rw [hidx]
    exact normalTransform_comp_nan _ _ _ i hnan

/-- C6 witness: the sanitization theorem at the concrete kernel kC6 with the
identity forward (which preserves finiteness). -/
theorem claim6_witness :
    inTile kC6.tile 0 0 ∧
    vcomp (kC6.color.get3 (kC6.tile.hSrc 0) (kC6.tile.wSrc 0)) 0 = FP.nan ∧
    ((kC6.run 0 0).data ((0 : ℕ) : ℤ) 0 0).isFinite = true ∧
    (kC6.run 0 0).data ((if kC6.color.present then (3 : ℤ) else 0) +
        (if kC6.albedo.present then (3 : ℤ) else 0) + ((2 : ℕ) : ℤ)) 0 0 =
      FP.fin (1/2) := by
  have hfwd : ∀ v : Vec3, allFinite v → allFinite (kC6.transferFunc.forward v) :=
    fun v hv => hv
  obtain ⟨u, hu1, hu2, hu3, hu4⟩ :=
    (claim6_theorem kC6 0 0 (by decide) hfwd).1 0 (by decide) rfl rfl
  exact ⟨by decide, rfl, hu4,
    (claim6_theorem kC6 0 0 (by decide) hfwd).2.2 2 (by decide) rfl rfl⟩

theorem makeKernel_presentChans (n : InputReorderNode) :
    presentChans n.makeKernel =
      numChannelsOpt n.color + numChannelsOpt n.albedo + numChannelsOpt n.normal := by
  unfold presentChans InputReorderNode.makeKernel numChannelsOpt
  cases n.color <;> cases n.albedo <;> cases n.normal <;>
    simp [Image.toAccessor, nullAccessor]

/-- C7: setSrc asserts that the destination channel count is at least the sum
of the channel counts of the present images, and under that precondition one
kernel invocation only ever writes channels c with 0 <= c < C. -/
theorem claim7_theorem (n : InputReorderNode) (color albedo normal : Option Image) :
    (setSrcAssert n color albedo normal ↔
      numChannelsOpt color + numChannelsOpt albedo + numChannelsOpt normal ≤ n.dst.C) ∧
    (setSrcAssert n color albedo normal →
      ∀ (hDst wDst : ℤ) (e : ℤ × ℤ × ℤ),
        e ∈ (((n.setSrc color albedo normal).makeKernel).run hDst wDst).writes →
        e ∈ n.dst.writes ∨ (0 ≤ e.1 ∧ e.1 < n.dst.C)) := by
  constructor
  · exact Iff.rfl
  · intro hassert hDst wDst e he
    have hC : presentChans ((n.setSrc color albedo normal).makeKernel) ≤
        ((n.setSrc color albedo normal).makeKernel).dst.C := by
      rw [makeKernel_presentChans]
      exact hassert
    exact run_writes_mem _ hC hDst wDst e he

/-- C7 witness: the setSrc precondition theorem at the concrete node nC7 and
the concrete write (0, 0, 0). -/
theorem claim7_witness :
    setSrcAssert ((mkInputReorderNode (dstEmpty 9 1 1) tfLinear false false).setTile
      0 0 0 0 1 1) (some imgC7) none none ∧
    ((0 : ℤ), (0 : ℤ), (0 : ℤ)) ∈ ((nC7.makeKernel).run 0 0).writes ∧
    (((0 : ℤ), (0 : ℤ), (0 : ℤ)) ∈
        ((mkInputReorderNode (dstEmpty 9 1 1) tfLinear false false).setTile
          0 0 0 0 1 1).dst.writes ∨
      (0 ≤ (0 : ℤ) ∧ (0 : ℤ) < ((mkInputReorderNode (dstEmpty 9 1 1) tfLinear
        false false).setTile 0 0 0 0 1 1).dst.C)) :=
  ⟨by decide, by decide,
   (claim7_theorem ((mkInputReorderNode (dstEmpty 9 1 1) tfLinear false false).setTile
       0 0 0 0 1 1) (some imgC7) none none).2 (by decide) 0 0 (0, 0, 0) (by decide)⟩

/-- C8: under the execute assertions (tile within the input image and within
the destination), every in-tile source coordinate satisfies the claimed upper
bounds h + hSrcBegin < height and w + wSrcBegin < width. -/
theorem claim8_theorem (n : InputReorderNode) (hassert : executeAssert n)
    (hDst wDst : ℤ) (hin : inTile n.tile hDst wDst) :
    ∃ inp : Image, n.getInput = some inp ∧
      n.tile.hSrc hDst < inp.height ∧ n.tile.wSrc wDst < inp.width := by
  obtain ⟨inp, hget, hw⟩ := hassert
  obtain ⟨ha1, ha2, ha3, ha4⟩ := hw
  refine ⟨inp, hget, ?_, ?_⟩
  · unfold Tile.hSrc
    unfold inTile at hin
    omega
  · unfold Tile.wSrc
    unfold inTile at hin
    omega

/-- C8 witness: the bounds theorem at the concrete node nC7 and pixel (0,0). -/
theorem claim8_witness :
    executeAssert nC7 ∧ inTile nC7.tile 0 0 ∧
    (∃ inp : Image, nC7.getInput = some inp ∧
      nC7.tile.hSrc 0 < inp.height ∧ nC7.tile.wSrc 0 < inp.width) :=
  ⟨⟨imgC7, rfl, by decide⟩, by decide,
   claim8_theorem nC7 ⟨imgC7, rfl, by decide⟩ 0 0 (by decide)⟩

/-- C9: a freshly constructed InputReorderNode has the all-zero tile, and
executing any node whose tile is still all-zero writes 0 to every channel
c < C of every destination pixel, because no pixel is in-tile when H = W = 0. -/
theorem claim9_theorem :
    (∀ (dst : TensorAccessor) (tf : TransferFunction) (hdr snorm : Bool),
      (mkInputReorderNode dst tf hdr snorm).tile = ⟨0, 0, 0, 0, 0, 0⟩) ∧
    (∀ n : InputReorderNode, n.tile = ⟨0, 0, 0, 0, 0, 0⟩ →
      ∀ h w c : ℤ, 0 ≤ h → h < n.dst.H → 0 ≤ w → w < n.dst.W → 0 ≤ c → c < n.dst.C →
      n.execute.data c h w = FP.fin 0) := by
  constructor
  · intro dst tf hdr snorm
    rfl
  · intro n htile h w c hh0 hhH hw0 hwW hc0 hcC
    unfold InputReorderNode.execute
    rw [runAll_data n.makeKernel c h w hc0 hcC hh0 hhH hw0 hwW]
    refine run_data_out n.makeKernel h w ?_ c hc0 hcC
    rw [show n.makeKernel.tile = n.tile from rfl, htile]
    show ¬(0 ≤ h - 0 ∧ h - 0 < 0 ∧ 0 ≤ w - 0 ∧ w - 0 < 0)
    omega

/-- C9 witness: a freshly constructed node over a 2x2x2 destination has the
zero tile and executes to zero at channel 0 of pixel (0,0). -/
theorem claim9_witness :
    (mkInputReorderNode (dstEmpty 2 2 2) tfLinear false false).tile = ⟨0, 0, 0, 0, 0, 0⟩ ∧
    (mkInputReorderNode (dstEmpty 2 2 2) tfLinear false false).execute.data 0 0 0 =
      FP.fin 0 :=
  ⟨claim9_theorem.1 (dstEmpty 2 2 2) tfLinear false false,
   claim9_theorem.2 (mkInputReorderNode (dstEmpty 2 2 2) tfLinear false false) rfl
     0 0 0 (by decide) (by decide) (by decide) (by decide) (by decide) (by decide)⟩

theorem inTileVal_congr (k1 k2 : InputReorder) (hS wS c : ℤ)
    (hcp : k1.color.present = k2.color.present)
    (hap : k1.albedo.present = k2.albedo.present)
    (hnp : k1.normal.present = k2.normal.present)
    (hh : k1.hdr = k2.hdr) (hs : k1.snorm = k2.snorm)
    (hscale : k1.transferFunc.inputScale = k2.transferFunc.inputScale)
    (hfwd : k1.transferFunc.forward = k2.transferFunc.forward)
    (hcv : k1.color.present = true → k1.color.get3 hS wS = k2.color.get3 hS wS)
    (hav : k1.albedo.present = true → k1.albedo.get3 hS wS = k2.albedo.get3 hS wS)
    (hnv : k1.normal.present = true → k1.normal.get3 hS wS = k2.normal.get3 hS wS) :
    inTileVal k1 hS wS c = inTileVal k2 hS wS c := by
  have e1 : ∀ v, colorTransform k1.transferFunc k1.hdr k1.snorm v =
      colorTransform k2.transferFunc k1.hdr k1.snorm v := by
    intro v
    unfold colorTransform
    rw [hscale, hfwd]
  have e2 : ∀ v, albedoTransform k1.transferFunc k1.color.present v =
      albedoTransform k2.transferFunc k1.color.present v := by
    intro v
    unfold albedoTransform
    rw [hscale, hfwd]
  have e3 : ∀ v, normalTransform k1.transferFunc k1.color.present v =
      normalTransform k2.transferFunc k1.color.present v := by
    intro v
    unfold normalTransform
    rw [hscale]
  unfold inTileVal
  rw [← hcp, ← hap, ← hnp, ← hh, ← hs]
  by_cases h1 : k1.color.present = true ∧ 0 ≤ c ∧ c < 3
  · rw [if_pos h1, if_pos h1, e1, hcv h1.1]
  · rw [if_neg h1, if_neg h1]
    by_cases h2 : k1.albedo.present = true ∧
        (if k1.color.present then (3 : ℤ) else 0) ≤ c ∧
        c < (if k1.color.present then (3 : ℤ) else 0) + 3
    · rw [if_pos h2, if_pos h2, e2, hav h2.1]
    · rw [if_neg h2, if_neg h2]
      by_cases h3 : k1.normal.present = true ∧
          (if k1.color.present then (3 : ℤ) else 0) +
            (if k1.albedo.present then (3 : ℤ) else 0) ≤ c ∧
          c < (if k1.color.present then (3 : ℤ) else 0) +
            (if k1.albedo.present then (3 : ℤ) else 0) + 3
      · rw [if_pos h3, if_pos h3, e3, hnv h3.1]
      · rw [if_neg h3, if_neg h3]

/-- C10: the kernel is deterministic and pointwise: two kernels with the
same tile, flags, transfer function, presence pattern and destination shape
write the same value to every destination pixel channel c < C, provided only
that each present image agrees at the single source pixel
(hDst - hDstBegin + hSrcBegin, wDst - wDstBegin + wSrcBegin); no other source
pixel and no prior destination content influences the value. -/
theorem claim10_theorem (k1 k2 : InputReorder)
    (ht : k1.tile = k2.tile)
    (hcp : k1.color.present = k2.color.present)
    (hap : k1.albedo.present = k2.albedo.present)
    (hnp : k1.normal.present = k2.normal.present)
    (hh : k1.hdr = k2.hdr) (hs : k1.snorm = k2.snorm)
    (hscale : k1.transferFunc.inputScale = k2.transferFunc.inputScale)
    (hfwd : k1.transferFunc.forward = k2.transferFunc.forward)
    (hC : k1.dst.C = k2.dst.C) (hH : k1.dst.H = k2.dst.H) (hW : k1.dst.W = k2.dst.W)
    (h w : ℤ) (hh0 : 0 ≤ h) (hhH : h < k1.dst.H) (hw0 : 0 ≤ w) (hwW : w < k1.dst.W)
    (hcv : k1.color.present = true →
      k1.color.get3 (k1.tile.hSrc h) (k1.tile.wSrc w) =
        k2.color.get3 (k1.tile.hSrc h) (k1.tile.wSrc w))
    (hav : k1.albedo.present = true →
      k1.albedo.get3 (k1.tile.hSrc h) (k1.tile.wSrc w) =
        k2.albedo.get3 (k1.tile.hSrc h) (k1.tile.wSrc w))
    (hnv : k1.normal.present = true →
      k1.normal.get3 (k1.tile.hSrc h) (k1.tile.wSrc w) =
        k2.normal.get3 (k1.tile.hSrc h) (k1.tile.wSrc w))
    (c : ℤ) (hc0 : 0 ≤ c) (hcC : c < k1.dst.C) :
    k1.runAll.data c h w = k2.runAll.data c h w := by
  rw [runAll_data k1 c h w hc0 hcC hh0 hhH hw0 hwW,
    runAll_data k2 c h w hc0 (hC ▸ hcC) hh0 (hH ▸ hhH) hw0 (hW ▸ hwW)]
  by_cases hin : inTile k1.tile h w
  · rw [run_data_in k1 h w hin c hc0 (Or.inl hcC),
      run_data_in k2 h w (ht ▸ hin) c hc0 (Or.inl (hC ▸ hcC))]
    have hhS : k2.tile.hSrc h = k1.tile.hSrc h := by rw [ht]
    have hwS : k2.tile.wSrc w = k1.tile.wSrc w := by rw [ht]
    rw [hhS, hwS]
    exact inTileVal_congr k1 k2 _ _ c hcp hap hnp hh hs hscale hfwd hcv hav hnv
  · rw [run_data_out k1 h w hin c hc0 hcC,
      run_data_out k2 h w (by rw [← ht]; exact hin) c hc0 (hC ▸ hcC)]

/-- C10 witness: the pointwise theorem at the two concrete kernels, which
agree only at the one source pixel and differ in prior destination content. -/
theorem claim10_witness :
    kC10a.color.get3 (kC10a.tile.hSrc 0) (kC10a.tile.wSrc 0) =
      kC10b.color.get3 (kC10a.tile.hSrc 0) (kC10a.tile.wSrc 0) ∧
    kC10a.runAll.data 0 0 0 = kC10b.runAll.data 0 0 0 :=
  ⟨by decide,
   claim10_theorem kC10a kC10b rfl rfl rfl rfl rfl rfl rfl rfl rfl rfl rfl
     0 0 (by decide) (by decide) (by decide) (by decide)
     (fun _ => by decide) (fun hx => by cases hx) (fun hx => by cases hx)
     0 (by decide) (by decide)⟩
